import Mathlib

/-!
# RahaSoldi inventory-management system: a shallow embedding

This file embeds the data model and the state-changing operations of the
RahaSoldi IMS (a React application over a hosted relational store) and proves
properties of them.

Modelling conventions:

* Numeric amounts (quantities, prices, costs) are modelled as exact integers
  (`ℤ`).  The source stores them in JavaScript numbers; on the integral values
  used throughout the application's own examples, JavaScript arithmetic is
  exact, and every claim treated here is an exact-arithmetic identity.
* Identifiers (generated by `crypto.randomUUID()` in the source) are opaque
  strings; operations that mint a fresh identifier receive it as an argument.
* Timestamps (`new Date().toISOString()`) are modelled as an abstract integer
  clock `now`.  For the dashboard aggregation, a timestamp's value is its
  calendar-date index (the `YYYY-MM-DD` part of the ISO string), which is
  the only part the aggregation inspects (`timestamp.startsWith(date)`).
* The remote store (Supabase) is reached through `services/supabaseClient`;
  each remote call returns an in-band error signal that the caller may check
  (`const { error } = await ...; if (error) throw error`) or ignore.  The
  gateway is modelled as the stored collections plus an error oracle, and a
  log of the writes issued.
-/

set_option autoImplicit false

namespace RahaSoldi

/-- Purchase-order status, `types.ts`: `'ordered' | 'received' | 'cancelled'`. -/
inductive POStatus where
  | ordered
  | received
  | cancelled
  deriving DecidableEq

/-- `types.ts` `InventoryItem`. -/
structure InventoryItem where
  id : String
  name : String
  category : String
  quantity : ℤ
  costPrice : ℤ
  salesPrice : ℤ
  lowStockThreshold : ℤ
  lastUpdated : ℤ
  deriving DecidableEq

/-- `types.ts` `SaleItem`. -/
structure SaleItem where
  itemId : String
  name : String
  quantity : ℤ
  priceAtSale : ℤ
  costAtSale : ℤ
  deriving DecidableEq

/-- `types.ts` `SaleRecord`. -/
structure SaleRecord where
  id : String
  items : List SaleItem
  totalAmount : ℤ
  totalProfit : ℤ
  timestamp : ℤ
  deriving DecidableEq

/-- `types.ts` `ExpenseRecord`. -/
structure ExpenseRecord where
  id : String
  description : String
  amount : ℤ
  category : String
  date : ℤ
  recordedAt : ℤ
  deriving DecidableEq

/-- `types.ts` `PurchaseOrderItem`. -/
structure PurchaseOrderItem where
  itemId : String
  name : String
  quantity : ℤ
  unitCost : ℤ
  deriving DecidableEq

/-- `types.ts` `PurchaseOrder`. -/
structure PurchaseOrder where
  id : String
  supplier : String
  date : ℤ
  status : POStatus
  items : List PurchaseOrderItem
  totalCost : ℤ
  notes : Option String
  deriving DecidableEq

/-- The four in-memory collections held in React state by `App`
(`inventory`, `sales`, `expenses`, `purchaseOrders`). -/
structure AppState where
  inventory : List InventoryItem
  sales : List SaleRecord
  expenses : List ExpenseRecord
  purchaseOrders : List PurchaseOrder
  deriving DecidableEq

/-- The four collections of the remote store (`inventory`, `sales`,
`expenses`, `purchase_orders` tables).  Lists are kept newest-first, matching
the order in which `fetchData` reads them back (`order(..., descending)` on
collections into which the application only ever prepends). -/
structure Store where
  inventory : List InventoryItem
  sales : List SaleRecord
  expenses : List ExpenseRecord
  purchaseOrders : List PurchaseOrder
  deriving DecidableEq

/-- A single remote write issued by the operations treated in this file. -/
inductive RemoteWrite where
  | insertSale (s : SaleRecord)
  | insertPO (p : PurchaseOrder)
  | updateQty (itemId : String) (newQty : ℤ) (now : ℤ)
  | updatePOStatus (id : String) (status : POStatus)
  deriving DecidableEq

/-- Effect of a successful remote write on the store.  `update ... .eq('id', x)`
updates every row whose id matches. -/
def applyWrite : RemoteWrite → Store → Store
  | RemoteWrite.insertSale s, store => { store with sales := s :: store.sales }
  | RemoteWrite.insertPO p, store =>
      { store with purchaseOrders := p :: store.purchaseOrders }
  | RemoteWrite.updateQty itemId newQty now, store =>
      { store with inventory := store.inventory.map (fun i =>
          if i.id == itemId then { i with quantity := newQty, lastUpdated := now } else i) }
  | RemoteWrite.updatePOStatus id status, store =>
      { store with purchaseOrders := store.purchaseOrders.map (fun p =>
          if p.id == id then { p with status := status } else p) }

/-- Modelled from the spec: the remote store gateway
(`services/supabaseClient.ts`, absent from the sources; spec section 6
describes its contract: four collections with list/insert/update/delete,
"errors are surfaced as a generic failure signal with a message").
`failAt n` says whether the `n`-th remote write of the session signals an
error; a failed write leaves the store unchanged.  `log` records every write
issued, failed or not. -/
structure Gateway where
  store : Store
  failAt : ℕ → Bool
  ctr : ℕ
  log : List RemoteWrite

/-- Modelled from the spec: issue one remote write against the gateway,
returning the new gateway and the in-band error signal (`true` = error),
which the calling code may check or ignore. -/
def issue (w : RemoteWrite) (gw : Gateway) : Gateway × Bool :=
  let err := gw.failAt gw.ctr
  ({ store := if err then gw.store else applyWrite w gw.store,
     failAt := gw.failAt, ctr := gw.ctr + 1, log := gw.log ++ [w] }, err)

/-- `fetchData` (App, part_003 lines 122-170): re-read all four collections
from the store into local state.  (Each fetch is a read; this models the
successful read the reconciliation relies on.) -/
def fetchData (store : Store) : AppState :=
  { inventory := store.inventory, sales := store.sales,
    expenses := store.expenses, purchaseOrders := store.purchaseOrders }

/-- Result of one `App` handler: the new local state, the gateway after the
remote calls, and whether a failure notice (`alert`) was shown. -/
structure OpResult where
  state : AppState
  gateway : Gateway
  alerted : Bool

/-- `items.reduce((sum, item) => sum + item.quantity * item.priceAtSale, 0)`
(part_003 line 238). -/
def saleTotalAmount (items : List SaleItem) : ℤ :=
  items.foldl (fun sum it => sum + it.quantity * it.priceAtSale) 0

/-- `items.reduce((sum, item) => sum + item.quantity * item.costAtSale, 0)`
(part_003 line 239). -/
def saleTotalCost (items : List SaleItem) : ℤ :=
  items.foldl (fun sum it => sum + it.quantity * it.costAtSale) 0

/-- The `newSale` record built by `handleCompleteSale` (part_003 lines
241-247). -/
def mkSaleRecord (now : ℤ) (newId : String) (items : List SaleItem) : SaleRecord :=
  { id := newId, items := items, totalAmount := saleTotalAmount items,
    totalProfit := saleTotalAmount items - saleTotalCost items, timestamp := now }

/-- One step of the optimistic loop of `handleCompleteSale` (part_003 lines
251-260): `findIndex` the first inventory entry matching the sale item's id
and, if present, replace it with its quantity decremented and `lastUpdated`
refreshed; if absent, do nothing. -/
def decFirst (now : ℤ) (itemId : String) (q : ℤ) : List InventoryItem → List InventoryItem
  | [] => []
  | p :: ps =>
      if p.id == itemId then
        { p with quantity := p.quantity - q, lastUpdated := now } :: ps
      else
        p :: decFirst now itemId q ps

/-- The whole optimistic inventory mutation of `handleCompleteSale`
(`items.forEach(...)` over a copy of the current inventory). -/
def applyLocalSale (now : ℤ) (items : List SaleItem) (inv : List InventoryItem) :
    List InventoryItem :=
  items.foldl (fun acc it => decFirst now it.itemId it.quantity acc) inv

/-- The optimistic local state set by `handleCompleteSale` before any remote
call (part_003 lines 262-263): mutated inventory, new sale prepended. -/
def optimisticSaleState (now : ℤ) (newId : String) (items : List SaleItem)
    (st : AppState) : AppState :=
  { st with inventory := applyLocalSale now items st.inventory,
            sales := mkSaleRecord now newId items :: st.sales }

/-- `inventory.find(i => i.id === item.itemId)`: first inventory entry with
the given id. -/
def findItem (itemId : String) (inv : List InventoryItem) : Option InventoryItem :=
  inv.find? (fun i => i.id == itemId)

/-- The remote loop of `handleCompleteSale` (part_003 lines 271-280): for each
sale item in order, look its id up in the pre-transaction `snapshot`
(the `inventory` binding captured before the optimistic update) and, if
present, issue an absolute quantity update `snapshot quantity - sold
quantity`.  The error result of each update is not checked by the source, so
it is ignored here. -/
def remoteSaleUpdates (now : ℤ) (snapshot : List InventoryItem) :
    List SaleItem → Gateway → Gateway
  | [], gw => gw
  | it :: its, gw =>
      match findItem it.itemId snapshot with
      | none => remoteSaleUpdates now snapshot its gw
      | some cur =>
          remoteSaleUpdates now snapshot its
            (issue (RemoteWrite.updateQty it.itemId (cur.quantity - it.quantity) now) gw).1

/-- `handleCompleteSale` (part_003 lines 237-286).  Builds the sale record,
applies the optimistic local update, then (1) inserts the sale — on a
signalled error: alert and re-fetch — and (2) issues the per-item quantity
updates, whose error signals the source never reads. -/
def handleCompleteSale (now : ℤ) (newId : String) (items : List SaleItem)
    (st : AppState) (gw : Gateway) : OpResult :=
  let newSale := mkSaleRecord now newId items
  let optimistic := optimisticSaleState now newId items st
  let r := issue (RemoteWrite.insertSale newSale) gw
  if r.2 then
    { state := fetchData r.1.store, gateway := r.1, alerted := true }
  else
    { state := optimistic,
      gateway := remoteSaleUpdates now st.inventory items r.1, alerted := false }

/-- `orderItems.reduce((acc, item) => acc + (item.quantity * item.unitCost), 0)`
(part_000 line 76). -/
def poTotalCost (items : List PurchaseOrderItem) : ℤ :=
  items.foldl (fun acc it => acc + it.quantity * it.unitCost) 0

/-- The `Omit<PurchaseOrder, 'id'>` payload passed to `handleCreatePO`. -/
structure PurchaseOrderDraft where
  supplier : String
  date : ℤ
  status : POStatus
  items : List PurchaseOrderItem
  totalCost : ℤ
  notes : Option String
  deriving DecidableEq

/-- `handleCreatePO` (part_003 lines 320-336): assign the fresh id, prepend
locally, insert remotely; on a signalled error: alert and re-fetch. -/
def handleCreatePO (newId : String) (po : PurchaseOrderDraft)
    (st : AppState) (gw : Gateway) : OpResult :=
  let newPO : PurchaseOrder :=
    { id := newId, supplier := po.supplier, date := po.date, status := po.status,
      items := po.items, totalCost := po.totalCost, notes := po.notes }
  let st1 := { st with purchaseOrders := newPO :: st.purchaseOrders }
  let r := issue (RemoteWrite.insertPO newPO) gw
  if r.2 then
    { state := fetchData r.1.store, gateway := r.1, alerted := true }
  else
    { state := st1, gateway := r.1, alerted := false }

/-- `handleSubmitOrder` (part_000 lines 70-92): guard against an empty
supplier or an empty item list (alert, no call), compute `totalCost`, and call
`onCreateOrder` with status `ordered` and `date = now`. -/
def handleSubmitOrder (now : ℤ) (newId : String) (supplier : String)
    (notes : Option String) (orderItems : List PurchaseOrderItem)
    (st : AppState) (gw : Gateway) : OpResult :=
  if supplier = "" ∨ orderItems = [] then
    { state := st, gateway := gw, alerted := true }
  else
    handleCreatePO newId
      { supplier := supplier, date := now, status := POStatus.ordered,
        items := orderItems, totalCost := poTotalCost orderItems, notes := notes }
      st gw

/-- One step of the receipt loop of `handleUpdatePOStatus` (part_003 lines
357-376): `findIndex` the first inventory entry matching the order item's id;
if present, return the incremented quantity (`currentQty + orderedQty`) and
the updated list; if absent, `none`. -/
def incFirst (now : ℤ) (itemId : String) (q : ℤ) :
    List InventoryItem → Option (ℤ × List InventoryItem)
  | [] => none
  | p :: ps =>
      if p.id == itemId then
        some (p.quantity + q, { p with quantity := p.quantity + q, lastUpdated := now } :: ps)
      else
        (incFirst now itemId q ps).map (fun r => (r.1, p :: r.2))

/-- The receipt loop of `handleUpdatePOStatus`: walk the order's items,
accumulating the updated inventory and issuing one remote absolute quantity
update per found item (its error signal is not checked by the source). -/
def receiveItems (now : ℤ) :
    List PurchaseOrderItem → List InventoryItem → Gateway → List InventoryItem × Gateway
  | [], inv, gw => (inv, gw)
  | it :: its, inv, gw =>
      match incFirst now it.itemId it.quantity inv with
      | none => receiveItems now its inv gw
      | some r =>
          receiveItems now its r.2
            (issue (RemoteWrite.updateQty it.itemId r.1 now) gw).1

/-- `handleUpdatePOStatus` (part_003 lines 338-385).  Return if the order is
not found; set its status locally (unconditionally); update the status
remotely — on a signalled error: alert and re-fetch; if the new status is
`received` and the status read before the local mutation was not already
`received`, run the receipt loop over the order's items. -/
def handleUpdatePOStatus (now : ℤ) (id : String) (status : POStatus)
    (st : AppState) (gw : Gateway) : OpResult :=
  match st.purchaseOrders.find? (fun p => p.id == id) with
  | none => { state := st, gateway := gw, alerted := false }
  | some po =>
      let st1 := { st with purchaseOrders := st.purchaseOrders.map (fun p =>
        if p.id == id then { p with status := status } else p) }
      let r := issue (RemoteWrite.updatePOStatus id status) gw
      if r.2 then
        { state := fetchData r.1.store, gateway := r.1, alerted := true }
      else if status = POStatus.received ∧ po.status ≠ POStatus.received then
        let recv := receiveItems now po.items st1.inventory r.1
        { state := { st1 with inventory := recv.1 }, gateway := recv.2, alerted := false }
      else
        { state := st1, gateway := r.1, alerted := false }

/-- One point of the dashboard chart series. -/
structure ChartPoint where
  date : ℤ
  sales : ℤ
  profit : ℤ
  deriving DecidableEq

/-- `Dashboard.tsx` lines 28-32: the date keys of the trailing week, oldest
first — `today - i` for `i = 6 .. 0`.  A date is its calendar-day index. -/
def last7Days (today : ℤ) : List ℤ :=
  ((List.range 7).map (fun i => today - i)).reverse

/-- `chartData` (`Dashboard.tsx` lines 27-43): for each of the seven date
keys, sum `totalAmount` and `totalProfit` over the sales whose timestamp
falls on that calendar date (`s.timestamp.startsWith(date)`). -/
def chartData (today : ℤ) (sales : List SaleRecord) : List ChartPoint :=
  (last7Days today).map (fun date =>
    let daySales := sales.filter (fun s => s.timestamp == date)
    { date := date,
      sales := daySales.foldl (fun acc s => acc + s.totalAmount) 0,
      profit := daySales.foldl (fun acc s => acc + s.totalProfit) 0 })

/-! ## General helper lemmas -/

/-- A left fold that only accumulates sums equals the starting value plus the
sum of the mapped list (shape of every `reduce((acc, x) => acc + f(x), 0)` in
the source). -/
theorem foldl_add_map {α : Type} (f : α → ℤ) (l : List α) (a : ℤ) :
    l.foldl (fun acc x => acc + f x) a = a + (l.map f).sum := by
  induction l generalizing a with
  | nil => simp
  | cons x xs ih => simp [ih, add_assoc]

/-- Composition of two pointwise relations along a middle list. -/
theorem forall2_trans {α : Type} {R1 R2 R3 : α → α → Prop} {l1 l2 l3 : List α}
    (h12 : List.Forall₂ R1 l1 l2) (h23 : List.Forall₂ R2 l2 l3)
    (h : ∀ a b c, R1 a b → R2 b c → R3 a c) : List.Forall₂ R3 l1 l3 := by
  induction h12 generalizing l3 with
  | nil => cases h23; exact List.Forall₂.nil
  | cons h1 hs ih =>
      cases h23 with
      | cons h3 h4 => exact List.Forall₂.cons (h _ _ _ h1 h3) (ih h4)

/-- Weaken a pointwise relation using membership of the left element. -/
theorem forall2_imp_mem {α : Type} {R R' : α → α → Prop} {l1 l2 : List α}
    (h : List.Forall₂ R l1 l2) (himp : ∀ a ∈ l1, ∀ b, R a b → R' a b) :
    List.Forall₂ R' l1 l2 := by
  induction h with
  | nil => exact List.Forall₂.nil
  | cons h1 hs ih =>
      exact List.Forall₂.cons (himp _ (by simp) _ h1)
        (ih (fun a ha b hr => himp a (by simp [ha]) b hr))

/-- The fields of an `InventoryItem` other than `quantity` and `lastUpdated`. -/
def framePreserved (a b : InventoryItem) : Prop :=
  b.id = a.id ∧ b.name = a.name ∧ b.category = a.category ∧
  b.costPrice = a.costPrice ∧ b.salesPrice = a.salesPrice ∧
  b.lowStockThreshold = a.lowStockThreshold

theorem framePreserved_refl (a : InventoryItem) : framePreserved a a :=
  ⟨rfl, rfl, rfl, rfl, rfl, rfl⟩

theorem framePreserved_trans {a b c : InventoryItem}
    (h1 : framePreserved a b) (h2 : framePreserved b c) : framePreserved a c := by
  obtain ⟨e1, e2, e3, e4, e5, e6⟩ := h1
  obtain ⟨f1, f2, f3, f4, f5, f6⟩ := h2
  exact ⟨f1.trans e1, f2.trans e2, f3.trans e3, f4.trans e4, f5.trans e5, f6.trans e6⟩

/-! ## Lemmas about the optimistic sale update -/

/-- `decFirst` only touches `quantity` and `lastUpdated` of the first entry
matching the id, and nothing else. -/
theorem decFirst_forall2 (now : ℤ) (itemId : String) (q : ℤ)
    (inv : List InventoryItem) :
    List.Forall₂ (fun a b => framePreserved a b ∧ (a.id ≠ itemId → b = a)) inv
      (decFirst now itemId q inv) := by
  induction inv with
  | nil => exact List.Forall₂.nil
  | cons p ps ih =>
      by_cases hp : p.id = itemId
      · simp only [decFirst, hp, beq_self_eq_true, if_true]
        refine List.Forall₂.cons ⟨⟨hp.symm, rfl, rfl, rfl, rfl, rfl⟩, fun hne => absurd hp hne⟩ ?_
        exact List.forall₂_same.2 (fun a _ => ⟨framePreserved_refl a, fun _ => rfl⟩)
      · simp only [decFirst, beq_iff_eq, hp, if_false]
        exact List.Forall₂.cons ⟨framePreserved_refl p, fun _ => rfl⟩ ih

/-- The whole optimistic mutation preserves every field but `quantity` and
`lastUpdated`, and leaves entries whose id the sale never references
untouched. -/
theorem applyLocalSale_forall2 (now : ℤ) (items : List SaleItem)
    (inv : List InventoryItem) :
    List.Forall₂ (fun a b => framePreserved a b ∧
        (a.id ∉ items.map (fun it => it.itemId) → b = a))
      inv (applyLocalSale now items inv) := by
  induction items generalizing inv with
  | nil =>
      simp only [applyLocalSale, List.foldl_nil]
      exact List.forall₂_same.2 (fun a _ => ⟨framePreserved_refl a, fun _ => rfl⟩)
  | cons it its ih =>
      have h1 := decFirst_forall2 now it.itemId it.quantity inv
      have h2 := ih (decFirst now it.itemId it.quantity inv)
      have hfold : applyLocalSale now (it :: its) inv =
          applyLocalSale now its (decFirst now it.itemId it.quantity inv) := by
        simp [applyLocalSale]
      rw [hfold]
      refine forall2_trans h1 h2 ?_
      rintro a b c ⟨hf1, he1⟩ ⟨hf2, he2⟩
      refine ⟨framePreserved_trans hf1 hf2, fun hmem => ?_⟩
      have hne : a.id ≠ it.itemId := by
        intro h; exact hmem (by simp [h])
      have hb : b = a := he1 hne
      have hbm : b.id ∉ its.map (fun j => j.itemId) := by
        rw [hb]; intro h; exact hmem (by simp [h])
      rw [he2 hbm, hb]

/-- `decFirst` preserves the list of ids. -/
theorem decFirst_map_id (now : ℤ) (itemId : String) (q : ℤ)
    (inv : List InventoryItem) :
    (decFirst now itemId q inv).map (fun i => i.id) = inv.map (fun i => i.id) := by
  induction inv with
  | nil => rfl
  | cons p ps ih =>
      by_cases hp : p.id = itemId
      · simp [decFirst, hp]
      · simp [decFirst, hp, ih]

/-- `applyLocalSale` preserves the list of ids: no `InventoryItem` is created,
deleted or reordered. -/
theorem applyLocalSale_map_id (now : ℤ) (items : List SaleItem)
    (inv : List InventoryItem) :
    (applyLocalSale now items inv).map (fun i => i.id) = inv.map (fun i => i.id) := by
  induction items generalizing inv with
  | nil => rfl
  | cons it its ih =>
      have hfold : applyLocalSale now (it :: its) inv =
          applyLocalSale now its (decFirst now it.itemId it.quantity inv) := by
        simp [applyLocalSale]
      rw [hfold, ih, decFirst_map_id]

/-! ## Claim theorems -/

/-- C10: the local optimistic update of `completeSale` changes only
`quantity` and `lastUpdated` of the inventory entries referenced by the sale:
every other field of every entry is preserved positionally, entries whose id
the sale does not reference are untouched, length and order are preserved,
and the expenses and purchase-order collections are unchanged. -/
theorem optimisticSale_frame (now : ℤ) (newId : String) (items : List SaleItem)
    (st : AppState) :
    List.Forall₂ (fun a b => framePreserved a b ∧
        (a.id ∉ items.map (fun it => it.itemId) → b = a))
      st.inventory (optimisticSaleState now newId items st).inventory ∧
    (optimisticSaleState now newId items st).inventory.length = st.inventory.length ∧
    (optimisticSaleState now newId items st).expenses = st.expenses ∧
    (optimisticSaleState now newId items st).purchaseOrders = st.purchaseOrders := by
  refine ⟨applyLocalSale_forall2 now items st.inventory, ?_, rfl, rfl⟩
  exact (applyLocalSale_forall2 now items st.inventory).length_eq.symm

/-- C3: the `SaleRecord` produced by `completeSale` (prepended to the local
sales list on success) has `totalAmount` equal to the sum over items of
`quantity * priceAtSale` and `totalProfit` equal to `totalAmount` minus the
sum over items of `quantity * costAtSale`, exactly. -/
theorem completeSale_totals (now : ℤ) (newId : String) (items : List SaleItem)
    (st : AppState) (gw : Gateway)
    (hne : items ≠ []) (hfail : ∀ n, gw.failAt n = false) :
    (handleCompleteSale now newId items st gw).state.sales.head? =
      some (mkSaleRecord now newId items) ∧
    (mkSaleRecord now newId items).totalAmount =
      (items.map (fun it => it.quantity * it.priceAtSale)).sum ∧
    (mkSaleRecord now newId items).totalProfit =
      (items.map (fun it => it.quantity * it.priceAtSale)).sum -
        (items.map (fun it => it.quantity * it.costAtSale)).sum := by
  refine ⟨?_, ?_, ?_⟩
  · simp [handleCompleteSale, issue, hfail, optimisticSaleState]
  · simp [mkSaleRecord, saleTotalAmount, foldl_add_map]
  · simp [mkSaleRecord, saleTotalAmount, saleTotalCost, foldl_add_map]

/-- Witness for `completeSale_totals`: a two-line sale with a zero-quantity,
zero-price line; `totalAmount = 2 * 5` and `totalProfit = 10 - 6`. -/
theorem completeSale_totals_witness :
    (handleCompleteSale 1 "s1" [⟨"A", "A", 2, 5, 3⟩, ⟨"B", "B", 0, 0, 4⟩]
        ⟨[], [], [], []⟩ ⟨⟨[], [], [], []⟩, fun _ => false, 0, []⟩).state.sales.head? =
      some (mkSaleRecord 1 "s1" [⟨"A", "A", 2, 5, 3⟩, ⟨"B", "B", 0, 0, 4⟩]) ∧
    (mkSaleRecord 1 "s1" [⟨"A", "A", 2, 5, 3⟩, ⟨"B", "B", 0, 0, 4⟩]).totalAmount =
      (([⟨"A", "A", 2, 5, 3⟩, ⟨"B", "B", 0, 0, 4⟩] : List SaleItem).map
        (fun it => it.quantity * it.priceAtSale)).sum ∧
    (mkSaleRecord 1 "s1" [⟨"A", "A", 2, 5, 3⟩, ⟨"B", "B", 0, 0, 4⟩]).totalProfit =
      (([⟨"A", "A", 2, 5, 3⟩, ⟨"B", "B", 0, 0, 4⟩] : List SaleItem).map
        (fun it => it.quantity * it.priceAtSale)).sum -
        (([⟨"A", "A", 2, 5, 3⟩, ⟨"B", "B", 0, 0, 4⟩] : List SaleItem).map
          (fun it => it.quantity * it.costAtSale)).sum :=
  completeSale_totals 1 "s1" [⟨"A", "A", 2, 5, 3⟩, ⟨"B", "B", 0, 0, 4⟩]
    ⟨[], [], [], []⟩ ⟨⟨[], [], [], []⟩, fun _ => false, 0, []⟩
    (by decide) (fun _ => rfl)

/-- C8: for a non-empty supplier and item list, `createPurchaseOrder`
produces an order with `totalCost` equal to the sum over items of
`quantity * unitCost`, status `ordered`, `date = now` and the freshly minted
identifier, prepended to the in-memory purchase-order sequence; inventory,
sales and expenses are untouched and no failure notice is shown. -/
theorem createPurchaseOrder_spec (now : ℤ) (newId supplier : String)
    (notes : Option String) (orderItems : List PurchaseOrderItem)
    (st : AppState) (gw : Gateway)
    (hs : supplier ≠ "") (hi : orderItems ≠ [])
    (hfail : ∀ n, gw.failAt n = false)
    (hfresh : newId ∉ st.purchaseOrders.map (fun p => p.id)) :
    (handleSubmitOrder now newId supplier notes orderItems st gw).state.purchaseOrders =
      { id := newId, supplier := supplier, date := now, status := POStatus.ordered,
        items := orderItems,
        totalCost := (orderItems.map (fun it => it.quantity * it.unitCost)).sum,
        notes := notes } :: st.purchaseOrders ∧
    (handleSubmitOrder now newId supplier notes orderItems st gw).state.inventory =
      st.inventory ∧
    (handleSubmitOrder now newId supplier notes orderItems st gw).state.sales =
      st.sales ∧
    (handleSubmitOrder now newId supplier notes orderItems st gw).state.expenses =
      st.expenses ∧
    (handleSubmitOrder now newId supplier notes orderItems st gw).alerted = false := by
  have hcost : poTotalCost orderItems =
      (orderItems.map (fun it => it.quantity * it.unitCost)).sum := by
    simp [poTotalCost, foldl_add_map]
  refine ⟨?_, ?_, ?_, ?_, ?_⟩ <;>
    simp [handleSubmitOrder, hs, hi, handleCreatePO, issue, hfail, hcost]

/-- Witness for `createPurchaseOrder_spec`: the spec's own example,
`items = [(X, 3, 4), (Y, 2, 10)]`, whose total cost is `32`. -/
theorem createPurchaseOrder_spec_witness :
    (handleSubmitOrder 5 "po1" "Acme" none [⟨"X", "X", 3, 4⟩, ⟨"Y", "Y", 2, 10⟩]
        ⟨[], [], [], []⟩ ⟨⟨[], [], [], []⟩, fun _ => false, 0, []⟩).state.purchaseOrders =
      { id := "po1", supplier := "Acme", date := 5, status := POStatus.ordered,
        items := [⟨"X", "X", 3, 4⟩, ⟨"Y", "Y", 2, 10⟩],
        totalCost := (([⟨"X", "X", 3, 4⟩, ⟨"Y", "Y", 2, 10⟩] :
          List PurchaseOrderItem).map (fun it => it.quantity * it.unitCost)).sum,
        notes := none } :: ([] : List PurchaseOrder) ∧
    (([⟨"X", "X", 3, 4⟩, ⟨"Y", "Y", 2, 10⟩] : List PurchaseOrderItem).map
      (fun it => it.quantity * it.unitCost)).sum = 32 :=
  ⟨(createPurchaseOrder_spec 5 "po1" "Acme" none [⟨"X", "X", 3, 4⟩, ⟨"Y", "Y", 2, 10⟩]
      ⟨[], [], [], []⟩ ⟨⟨[], [], [], []⟩, fun _ => false, 0, []⟩
      (by decide) (by decide) (fun _ => rfl) (by decide)).1, by decide⟩

/-- C9: the 7-day trailing chart series is keyed by the calendar dates
`today - 6, ..., today` inclusive (both boundary dates present, `today - 7`
absent), and each point sums `totalAmount` and `totalProfit` over exactly the
sales dated on that point's calendar date — so sales dated `today - 7` are
counted nowhere. -/
theorem chartData_boundaries (today : ℤ) (sales : List SaleRecord) :
    (chartData today sales).map (fun pt => pt.date) =
      [today - 6, today - 5, today - 4, today - 3, today - 2, today - 1, today] ∧
    (∀ pt ∈ chartData today sales, pt.date ≠ today - 7) ∧
    (∀ pt ∈ chartData today sales,
      pt.sales = ((sales.filter (fun s => s.timestamp == pt.date)).map
        (fun s => s.totalAmount)).sum ∧
      pt.profit = ((sales.filter (fun s => s.timestamp == pt.date)).map
        (fun s => s.totalProfit)).sum) := by
  have hdates : (chartData today sales).map (fun pt => pt.date) =
      [today - 6, today - 5, today - 4, today - 3, today - 2, today - 1, today] := by
    simp only [chartData, last7Days, List.map_map, List.map_reverse]
    norm_num [List.range_succ]
  refine ⟨hdates, ?_, ?_⟩
  · intro pt hpt
    have hmem : pt.date ∈ (chartData today sales).map (fun pt => pt.date) :=
      List.mem_map_of_mem _ hpt
    rw [hdates] at hmem
    simp only [List.mem_cons, List.mem_singleton, List.not_mem_nil, or_false] at hmem
    rcases hmem with h | h | h | h | h | h | h <;> omega
  · intro pt hpt
    simp only [chartData, List.mem_map] at hpt
    obtain ⟨d, _, rfl⟩ := hpt
    constructor <;> simp [foldl_add_map]

/-- C1 is false as stated: a sale listing the same `itemId` twice (quantity 1
each, starting quantity 10) succeeds with no remote failure, yet the local
inventory holds quantity `8` while the remote store holds `9` — each remote
write uses the pre-transaction snapshot, so the last occurrence's write wins
and local and remote do not agree on the decremented quantity. -/
theorem completeSale_repeat_divergence :
    (handleCompleteSale 1 "s1" [⟨"A", "A", 1, 5, 2⟩, ⟨"A", "A", 1, 5, 2⟩]
        ⟨[⟨"A", "A", "c", 10, 2, 5, 0, 0⟩], [], [], []⟩
        ⟨⟨[⟨"A", "A", "c", 10, 2, 5, 0, 0⟩], [], [], []⟩, fun _ => false, 0, []⟩).alerted
        = false ∧
    findItem "A" (handleCompleteSale 1 "s1" [⟨"A", "A", 1, 5, 2⟩, ⟨"A", "A", 1, 5, 2⟩]
        ⟨[⟨"A", "A", "c", 10, 2, 5, 0, 0⟩], [], [], []⟩
        ⟨⟨[⟨"A", "A", "c", 10, 2, 5, 0, 0⟩], [], [], []⟩,
          fun _ => false, 0, []⟩).state.inventory
      = some ⟨"A", "A", "c", 8, 2, 5, 0, 1⟩ ∧
    findItem "A" (handleCompleteSale 1 "s1" [⟨"A", "A", 1, 5, 2⟩, ⟨"A", "A", 1, 5, 2⟩]
        ⟨[⟨"A", "A", "c", 10, 2, 5, 0, 0⟩], [], [], []⟩
        ⟨⟨[⟨"A", "A", "c", 10, 2, 5, 0, 0⟩], [], [], []⟩,
          fun _ => false, 0, []⟩).gateway.store.inventory
      = some ⟨"A", "A", "c", 9, 2, 5, 0, 1⟩ := by decide

/-- C4 is false as stated: for the same repeated-id sale, the remote phase
issues two inventory-quantity updates for the single distinct `itemId`
(one per occurrence, both carrying `10 - 1 = 9`), not exactly one. -/
theorem completeSale_repeat_two_updates :
    ((handleCompleteSale 1 "s1" [⟨"A", "A", 1, 5, 2⟩, ⟨"A", "A", 1, 5, 2⟩]
        ⟨[⟨"A", "A", "c", 10, 2, 5, 0, 0⟩], [], [], []⟩
        ⟨⟨[⟨"A", "A", "c", 10, 2, 5, 0, 0⟩], [], [], []⟩,
          fun _ => false, 0, []⟩).gateway.log.filter
      (fun w => match w with
        | RemoteWrite.updateQty _ _ _ => true
        | _ => false)) =
      [RemoteWrite.updateQty "A" 9 1, RemoteWrite.updateQty "A" 9 1] ∧
    ((([⟨"A", "A", 1, 5, 2⟩, ⟨"A", "A", 1, 5, 2⟩] : List SaleItem).map
      (fun it => it.itemId)).dedup).length = 1 := by decide

/-- C2 is contradicted by the code: the per-item inventory updates of
`handleCompleteSale` never check the error signal (unlike every other remote
write in the file).  Here the second remote write (the update for `A`) fails:
no notice is shown, the update for `B` is still issued, and the final local
state keeps the optimistic value (`A` at 8 locally, 10 remotely) instead of
the gateway's truth. -/
theorem completeSale_update_failure_ignored :
    (handleCompleteSale 1 "s1" [⟨"A", "A", 2, 5, 1⟩, ⟨"B", "B", 3, 7, 2⟩]
        ⟨[⟨"A", "A", "c", 10, 1, 5, 0, 0⟩, ⟨"B", "B", "c", 20, 2, 7, 0, 0⟩], [], [], []⟩
        ⟨⟨[⟨"A", "A", "c", 10, 1, 5, 0, 0⟩, ⟨"B", "B", "c", 20, 2, 7, 0, 0⟩], [], [], []⟩,
          fun n => n == 1, 0, []⟩).alerted = false ∧
    findItem "A" (handleCompleteSale 1 "s1" [⟨"A", "A", 2, 5, 1⟩, ⟨"B", "B", 3, 7, 2⟩]
        ⟨[⟨"A", "A", "c", 10, 1, 5, 0, 0⟩, ⟨"B", "B", "c", 20, 2, 7, 0, 0⟩], [], [], []⟩
        ⟨⟨[⟨"A", "A", "c", 10, 1, 5, 0, 0⟩, ⟨"B", "B", "c", 20, 2, 7, 0, 0⟩], [], [], []⟩,
          fun n => n == 1, 0, []⟩).state.inventory
      = some ⟨"A", "A", "c", 8, 1, 5, 0, 1⟩ ∧
    findItem "A" (handleCompleteSale 1 "s1" [⟨"A", "A", 2, 5, 1⟩, ⟨"B", "B", 3, 7, 2⟩]
        ⟨[⟨"A", "A", "c", 10, 1, 5, 0, 0⟩, ⟨"B", "B", "c", 20, 2, 7, 0, 0⟩], [], [], []⟩
        ⟨⟨[⟨"A", "A", "c", 10, 1, 5, 0, 0⟩, ⟨"B", "B", "c", 20, 2, 7, 0, 0⟩], [], [], []⟩,
          fun n => n == 1, 0, []⟩).gateway.store.inventory
      = some ⟨"A", "A", "c", 10, 1, 5, 0, 0⟩ ∧
    findItem "B" (handleCompleteSale 1 "s1" [⟨"A", "A", 2, 5, 1⟩, ⟨"B", "B", 3, 7, 2⟩]
        ⟨[⟨"A", "A", "c", 10, 1, 5, 0, 0⟩, ⟨"B", "B", "c", 20, 2, 7, 0, 0⟩], [], [], []⟩
        ⟨⟨[⟨"A", "A", "c", 10, 1, 5, 0, 0⟩, ⟨"B", "B", "c", 20, 2, 7, 0, 0⟩], [], [], []⟩,
          fun n => n == 1, 0, []⟩).gateway.store.inventory
      = some ⟨"B", "B", "c", 17, 2, 7, 0, 1⟩ ∧
    (handleCompleteSale 1 "s1" [⟨"A", "A", 2, 5, 1⟩, ⟨"B", "B", 3, 7, 2⟩]
        ⟨[⟨"A", "A", "c", 10, 1, 5, 0, 0⟩, ⟨"B", "B", "c", 20, 2, 7, 0, 0⟩], [], [], []⟩
        ⟨⟨[⟨"A", "A", "c", 10, 1, 5, 0, 0⟩, ⟨"B", "B", "c", 20, 2, 7, 0, 0⟩], [], [], []⟩,
          fun n => n == 1, 0, []⟩).gateway.log.length = 3 ∧
    (handleCompleteSale 1 "s1" [⟨"A", "A", 2, 5, 1⟩, ⟨"B", "B", 3, 7, 2⟩]
        ⟨[⟨"A", "A", "c", 10, 1, 5, 0, 0⟩, ⟨"B", "B", "c", 20, 2, 7, 0, 0⟩], [], [], []⟩
        ⟨⟨[⟨"A", "A", "c", 10, 1, 5, 0, 0⟩, ⟨"B", "B", "c", 20, 2, 7, 0, 0⟩], [], [], []⟩,
          fun n => n == 1, 0, []⟩).state ≠
      fetchData (handleCompleteSale 1 "s1" [⟨"A", "A", 2, 5, 1⟩, ⟨"B", "B", 3, 7, 2⟩]
        ⟨[⟨"A", "A", "c", 10, 1, 5, 0, 0⟩, ⟨"B", "B", "c", 20, 2, 7, 0, 0⟩], [], [], []⟩
        ⟨⟨[⟨"A", "A", "c", 10, 1, 5, 0, 0⟩, ⟨"B", "B", "c", 20, 2, 7, 0, 0⟩], [], [], []⟩,
          fun n => n == 1, 0, []⟩).gateway.store := by decide

/-- C6 is false as stated: an order already in the terminal state `received`
still has its status overwritten — `updatePurchaseOrderStatus(id, cancelled)`
moves it to `cancelled`. -/
theorem updatePOStatus_overwrites_terminal :
    ((handleUpdatePOStatus 2 "P" POStatus.cancelled
        ⟨[], [], [], [⟨"P", "S", 1, POStatus.received, [], 0, none⟩]⟩
        ⟨⟨[], [], [], [⟨"P", "S", 1, POStatus.received, [], 0, none⟩]⟩,
          fun _ => false, 0, []⟩).state.purchaseOrders.map (fun p => p.status)) =
      [POStatus.cancelled] ∧
    ((handleUpdatePOStatus 2 "P" POStatus.cancelled
        ⟨[], [], [], [⟨"P", "S", 1, POStatus.received, [], 0, none⟩]⟩
        ⟨⟨[], [], [], [⟨"P", "S", 1, POStatus.received, [], 0, none⟩]⟩,
          fun _ => false, 0, []⟩).gateway.store.purchaseOrders.map
      (fun p => p.status)) = [POStatus.cancelled] := by decide

/-- Setting the status of all orders matching an id, then looking that id up,
finds the original first match with its status replaced. -/
theorem find?_setStatus (id : String) (s : POStatus) (l : List PurchaseOrder) :
    (l.map (fun p => if p.id == id then { p with status := s } else p)).find?
      (fun p => p.id == id) =
      (l.find? (fun p => p.id == id)).map (fun p => { p with status := s }) := by
  induction l with
  | nil => rfl
  | cons p ps ih =>
      by_cases hp : p.id = id
      · have hmap : ((p :: ps).map (fun q => if q.id == id then { q with status := s } else q)) =
            ({ p with status := s } ::
              ps.map (fun q => if q.id == id then { q with status := s } else q)) := by
          simp [hp]
        rw [hmap, List.find?_cons_of_pos _ (by simp [hp]),
          List.find?_cons_of_pos _ (by simp [hp])]
        simp
      · have hmap : ((p :: ps).map (fun q => if q.id == id then { q with status := s } else q)) =
            (p :: ps.map (fun q => if q.id == id then { q with status := s } else q)) := by
          simp [hp]
        rw [hmap, List.find?_cons_of_neg _ (by simp [hp]),
          List.find?_cons_of_neg _ (by simp [hp]), ih]

/-- On a successful remote status write, the final purchase-order list of
`handleUpdatePOStatus` is the original with the status of every order
matching the id replaced — in both the receiving and the non-receiving
branch. -/
theorem updatePOStatus_state_pos (now : ℤ) (id : String) (status : POStatus)
    (st : AppState) (gw : Gateway) (po : PurchaseOrder)
    (hfind : st.purchaseOrders.find? (fun p => p.id == id) = some po)
    (hfail : ∀ n, gw.failAt n = false) :
    (handleUpdatePOStatus now id status st gw).state.purchaseOrders =
      st.purchaseOrders.map (fun p =>
        if p.id == id then { p with status := status } else p) := by
  have hg : (issue (RemoteWrite.updatePOStatus id status) gw).2 = false := by
    simp [issue, hfail]
  unfold handleUpdatePOStatus
  rw [hfind]
  simp only [hg, Bool.false_eq_true, if_false]
  split <;> rfl

/-- C6 (amended): `updatePurchaseOrderStatus` sets the found order's status
to the requested value unconditionally — terminal states are not enforced, so
`ordered` may move to `received` or `cancelled`, but a later call can also
overwrite a terminal status (only the inventory increment is guarded). -/
theorem updatePOStatus_sets_unconditionally (now : ℤ) (id : String)
    (status : POStatus) (st : AppState) (gw : Gateway) (po : PurchaseOrder)
    (hfind : st.purchaseOrders.find? (fun p => p.id == id) = some po)
    (hfail : ∀ n, gw.failAt n = false) :
    (handleUpdatePOStatus now id status st gw).state.purchaseOrders.find?
      (fun p => p.id == id) = some { po with status := status } := by
  rw [updatePOStatus_state_pos now id status st gw po hfind hfail,
    find?_setStatus, hfind]
  rfl

/-- Witness for `updatePOStatus_sets_unconditionally`: a terminal (received)
order is moved to `cancelled`. -/
theorem updatePOStatus_sets_unconditionally_witness :
    (handleUpdatePOStatus 2 "Q" POStatus.cancelled
        ⟨[], [], [], [⟨"Q", "S", 1, POStatus.received, [], 0, none⟩]⟩
        ⟨⟨[], [], [], []⟩, fun _ => false, 0, []⟩).state.purchaseOrders.find?
      (fun p => p.id == "Q") =
      some ⟨"Q", "S", 1, POStatus.cancelled, [], 0, none⟩ :=
  updatePOStatus_sets_unconditionally 2 "Q" POStatus.cancelled
    ⟨[], [], [], [⟨"Q", "S", 1, POStatus.received, [], 0, none⟩]⟩
    ⟨⟨[], [], [], []⟩, fun _ => false, 0, []⟩
    ⟨"Q", "S", 1, POStatus.received, [], 0, none⟩ (by decide) (fun _ => rfl)

/-- `decFirst` is the identity when no inventory entry carries the id. -/
theorem decFirst_of_absent (now : ℤ) (t : String) (q : ℤ)
    (inv : List InventoryItem) (h : ∀ p ∈ inv, p.id ≠ t) :
    decFirst now t q inv = inv := by
  induction inv with
  | nil => rfl
  | cons p ps ih =>
      have hp : p.id ≠ t := h p (by simp)
      simp [decFirst, hp, ih (fun a ha => h a (by simp [ha]))]

/-- Folding the optimistic update over an appended list is folding it over
the two halves in order. -/
theorem applyLocalSale_append (now : ℤ) (l1 l2 : List SaleItem)
    (inv : List InventoryItem) :
    applyLocalSale now (l1 ++ l2) inv =
      applyLocalSale now l2 (applyLocalSale now l1 inv) := by
  simp [applyLocalSale, List.foldl_append]

/-- The remote update loop over an appended list runs the two halves in
order. -/
theorem remoteSaleUpdates_append (now : ℤ) (snapshot : List InventoryItem)
    (l1 l2 : List SaleItem) (g : Gateway) :
    remoteSaleUpdates now snapshot (l1 ++ l2) g =
      remoteSaleUpdates now snapshot l2 (remoteSaleUpdates now snapshot l1 g) := by
  induction l1 generalizing g with
  | nil => rfl
  | cons it its ih =>
      rw [List.cons_append]
      cases hf : findItem it.itemId snapshot with
      | none => rw [remoteSaleUpdates, hf, remoteSaleUpdates, hf]; exact ih _
      | some cur => rw [remoteSaleUpdates, hf, remoteSaleUpdates, hf]; exact ih _

/-- C7: a sale line whose `itemId` matches no inventory entry is a silent
no-op: the optimistic update over the sale equals the update over the sale
with that line removed, the remote loop issues no write for it, no
`InventoryItem` is created (the id list is unchanged), and no failure notice
is shown — the other lines are processed normally. -/
theorem completeSale_absent_noop (now : ℤ) (newId : String)
    (pre post : List SaleItem) (bad : SaleItem) (st : AppState) (gw : Gateway)
    (hmiss : bad.itemId ∉ st.inventory.map (fun i => i.id))
    (hfail : ∀ n, gw.failAt n = false) :
    applyLocalSale now (pre ++ bad :: post) st.inventory =
      applyLocalSale now (pre ++ post) st.inventory ∧
    (∀ g : Gateway, remoteSaleUpdates now st.inventory (pre ++ bad :: post) g =
      remoteSaleUpdates now st.inventory (pre ++ post) g) ∧
    ((handleCompleteSale now newId (pre ++ bad :: post) st gw).state.inventory.map
      (fun i => i.id)) = st.inventory.map (fun i => i.id) ∧
    (handleCompleteSale now newId (pre ++ bad :: post) st gw).alerted = false := by
  have habs : ∀ p ∈ st.inventory, p.id ≠ bad.itemId := by
    intro p hp he
    exact hmiss (by rw [← he]; exact List.mem_map_of_mem _ hp)
  refine ⟨?_, ?_, ?_, ?_⟩
  · rw [applyLocalSale_append, applyLocalSale_append]
    have hmid : ∀ p ∈ applyLocalSale now pre st.inventory, p.id ≠ bad.itemId := by
      intro p hp he
      have : p.id ∈ (applyLocalSale now pre st.inventory).map (fun i => i.id) :=
        List.mem_map_of_mem _ hp
      rw [applyLocalSale_map_id] at this
      exact hmiss (he ▸ this)
    have hstep : applyLocalSale now (bad :: post) (applyLocalSale now pre st.inventory) =
        applyLocalSale now post (applyLocalSale now pre st.inventory) := by
      show List.foldl _ _ (bad :: post) = _
      rw [List.foldl_cons]
      show applyLocalSale now post
        (decFirst now bad.itemId bad.quantity (applyLocalSale now pre st.inventory)) = _
      rw [decFirst_of_absent now bad.itemId bad.quantity _ hmid]
    exact hstep
  · intro g
    have hnone : findItem bad.itemId st.inventory = none := by
      refine List.find?_eq_none.2 (fun p hp => ?_)
      simp [habs p hp]
    rw [remoteSaleUpdates_append, remoteSaleUpdates_append,
      remoteSaleUpdates, hnone]
  · have hstate : (handleCompleteSale now newId (pre ++ bad :: post) st gw).state.inventory =
        applyLocalSale now (pre ++ bad :: post) st.inventory := by
      simp [handleCompleteSale, issue, hfail, optimisticSaleState]
    rw [hstate, applyLocalSale_map_id]
  · simp [handleCompleteSale, issue, hfail]

/-- Witness for `completeSale_absent_noop`: inventory holds only `A`; the
sale contains a line for the deleted id `X` between two `A` lines. -/
theorem completeSale_absent_noop_witness :
    applyLocalSale 1 ([⟨"A", "A", 1, 5, 2⟩] ++ ⟨"X", "X", 4, 3, 1⟩ :: [⟨"A", "A", 2, 5, 2⟩])
        [⟨"A", "A", "c", 10, 2, 5, 0, 0⟩] =
      applyLocalSale 1 ([⟨"A", "A", 1, 5, 2⟩] ++ [⟨"A", "A", 2, 5, 2⟩])
        [⟨"A", "A", "c", 10, 2, 5, 0, 0⟩] ∧
    (∀ g : Gateway, remoteSaleUpdates 1 [⟨"A", "A", "c", 10, 2, 5, 0, 0⟩]
        ([⟨"A", "A", 1, 5, 2⟩] ++ ⟨"X", "X", 4, 3, 1⟩ :: [⟨"A", "A", 2, 5, 2⟩]) g =
      remoteSaleUpdates 1 [⟨"A", "A", "c", 10, 2, 5, 0, 0⟩]
        ([⟨"A", "A", 1, 5, 2⟩] ++ [⟨"A", "A", 2, 5, 2⟩]) g) ∧
    ((handleCompleteSale 1 "s1"
        ([⟨"A", "A", 1, 5, 2⟩] ++ ⟨"X", "X", 4, 3, 1⟩ :: [⟨"A", "A", 2, 5, 2⟩])
        ⟨[⟨"A", "A", "c", 10, 2, 5, 0, 0⟩], [], [], []⟩
        ⟨⟨[⟨"A", "A", "c", 10, 2, 5, 0, 0⟩], [], [], []⟩,
          fun _ => false, 0, []⟩).state.inventory.map (fun i => i.id)) =
      ([⟨"A", "A", "c", 10, 2, 5, 0, 0⟩] : List InventoryItem).map (fun i => i.id) ∧
    (handleCompleteSale 1 "s1"
        ([⟨"A", "A", 1, 5, 2⟩] ++ ⟨"X", "X", 4, 3, 1⟩ :: [⟨"A", "A", 2, 5, 2⟩])
        ⟨[⟨"A", "A", "c", 10, 2, 5, 0, 0⟩], [], [], []⟩
        ⟨⟨[⟨"A", "A", "c", 10, 2, 5, 0, 0⟩], [], [], []⟩,
          fun _ => false, 0, []⟩).alerted = false :=
  completeSale_absent_noop 1 "s1" [⟨"A", "A", 1, 5, 2⟩] [⟨"A", "A", 2, 5, 2⟩]
    ⟨"X", "X", 4, 3, 1⟩ ⟨[⟨"A", "A", "c", 10, 2, 5, 0, 0⟩], [], [], []⟩
    ⟨⟨[⟨"A", "A", "c", 10, 2, 5, 0, 0⟩], [], [], []⟩, fun _ => false, 0, []⟩
    (by decide) (fun _ => rfl)

/-- The remote loop of `completeSale` appends to the gateway log exactly one
update write per sale-item occurrence whose id the snapshot resolves, in item
order, each carrying the snapshot quantity minus that occurrence's sold
quantity. -/
theorem remoteSaleUpdates_log (now : ℤ) (snapshot : List InventoryItem)
    (items : List SaleItem) (gw : Gateway)
    (hpres : ∀ it ∈ items, (findItem it.itemId snapshot).isSome) :
    ∃ ws, (remoteSaleUpdates now snapshot items gw).log = gw.log ++ ws ∧
      List.Forall₂ (fun (it : SaleItem) (w : RemoteWrite) =>
        ∃ cur, findItem it.itemId snapshot = some cur ∧
          w = RemoteWrite.updateQty it.itemId (cur.quantity - it.quantity) now)
        items ws := by
  induction items generalizing gw with
  | nil => exact ⟨[], by simp [remoteSaleUpdates], List.Forall₂.nil⟩
  | cons it its ih =>
      obtain ⟨cur, hcur⟩ := Option.isSome_iff_exists.1 (hpres it (by simp))
      obtain ⟨ws, hlog, hfa⟩ :=
        ih ((issue (RemoteWrite.updateQty it.itemId (cur.quantity - it.quantity) now) gw).1)
          (fun j hj => hpres j (by simp [hj]))
      refine ⟨RemoteWrite.updateQty it.itemId (cur.quantity - it.quantity) now :: ws,
        ?_, List.Forall₂.cons ⟨cur, hcur, rfl⟩ hfa⟩
      rw [remoteSaleUpdates, hcur, hlog]
      simp [issue]

/-- C4 (amended): on a successful sale insert, `completeSale`'s remote phase
first inserts the `SaleRecord` and then issues exactly one inventory-quantity
update per sale-item *occurrence* whose id resolves in the pre-transaction
snapshot, sequentially in item order, each written quantity being the
snapshot quantity minus that occurrence's sold quantity (a repeated id gets
one write per occurrence, not one per distinct id). -/
theorem completeSale_remote_writes (now : ℤ) (newId : String)
    (items : List SaleItem) (st : AppState) (gw : Gateway)
    (hIns : gw.failAt gw.ctr = false)
    (hpres : ∀ it ∈ items, (findItem it.itemId st.inventory).isSome) :
    ∃ ws, (handleCompleteSale now newId items st gw).gateway.log =
        gw.log ++ RemoteWrite.insertSale (mkSaleRecord now newId items) :: ws ∧
      List.Forall₂ (fun (it : SaleItem) (w : RemoteWrite) =>
        ∃ cur, findItem it.itemId st.inventory = some cur ∧
          w = RemoteWrite.updateQty it.itemId (cur.quantity - it.quantity) now)
        items ws := by
  have hr : (issue (RemoteWrite.insertSale (mkSaleRecord now newId items)) gw).2 = false := by
    simp [issue, hIns]
  obtain ⟨ws, hlog, hfa⟩ := remoteSaleUpdates_log now st.inventory items
    ((issue (RemoteWrite.insertSale (mkSaleRecord now newId items)) gw).1) hpres
  refine ⟨ws, ?_, hfa⟩
  show (handleCompleteSale now newId items st gw).gateway.log = _
  unfold handleCompleteSale
  simp only [hr, Bool.false_eq_true, if_false]
  rw [hlog]
  simp [issue]

/-- Witness for `completeSale_remote_writes`: a two-line sale over two
distinct present items. -/
theorem completeSale_remote_writes_witness :
    ∃ ws, (handleCompleteSale 1 "s1" [⟨"A", "A", 2, 5, 1⟩, ⟨"B", "B", 3, 7, 2⟩]
        ⟨[⟨"A", "A", "c", 10, 1, 5, 0, 0⟩, ⟨"B", "B", "c", 20, 2, 7, 0, 0⟩], [], [], []⟩
        ⟨⟨[⟨"A", "A", "c", 10, 1, 5, 0, 0⟩, ⟨"B", "B", "c", 20, 2, 7, 0, 0⟩], [], [], []⟩,
          fun _ => false, 0, []⟩).gateway.log =
        [] ++ RemoteWrite.insertSale
          (mkSaleRecord 1 "s1" [⟨"A", "A", 2, 5, 1⟩, ⟨"B", "B", 3, 7, 2⟩]) :: ws ∧
      List.Forall₂ (fun (it : SaleItem) (w : RemoteWrite) =>
        ∃ cur, findItem it.itemId
            [⟨"A", "A", "c", 10, 1, 5, 0, 0⟩, ⟨"B", "B", "c", 20, 2, 7, 0, 0⟩] = some cur ∧
          w = RemoteWrite.updateQty it.itemId (cur.quantity - it.quantity) 1)
        [⟨"A", "A", 2, 5, 1⟩, ⟨"B", "B", 3, 7, 2⟩] ws :=
  completeSale_remote_writes 1 "s1" [⟨"A", "A", 2, 5, 1⟩, ⟨"B", "B", 3, 7, 2⟩]
    ⟨[⟨"A", "A", "c", 10, 1, 5, 0, 0⟩, ⟨"B", "B", "c", 20, 2, 7, 0, 0⟩], [], [], []⟩
    ⟨⟨[⟨"A", "A", "c", 10, 1, 5, 0, 0⟩, ⟨"B", "B", "c", 20, 2, 7, 0, 0⟩], [], [], []⟩,
      fun _ => false, 0, []⟩ rfl (by decide)

/-- Looking up the id just decremented: `decFirst` decrements exactly the
entry `find` would return. -/
theorem findItem_decFirst_self (now : ℤ) (t : String) (q : ℤ)
    (inv : List InventoryItem) :
    findItem t (decFirst now t q inv) =
      (findItem t inv).map (fun p =>
        { p with quantity := p.quantity - q, lastUpdated := now }) := by
  induction inv with
  | nil => rfl
  | cons p ps ih =>
      by_cases hp : p.id = t
      · rw [show decFirst now t q (p :: ps) =
            ({ p with quantity := p.quantity - q, lastUpdated := now } :: ps) from by
          simp [decFirst, hp]]
        simp only [findItem]
        rw [List.find?_cons_of_pos _ (by simp [hp]),
          List.find?_cons_of_pos _ (by simp [hp])]
        rfl
      · rw [show decFirst now t q (p :: ps) = (p :: decFirst now t q ps) from by
          simp [decFirst, hp]]
        simp only [findItem] at ih ⊢
        by_cases hpt : p.id = t
        · exact absurd hpt hp
        · rw [List.find?_cons_of_neg _ (by simp [hpt]),
            List.find?_cons_of_neg _ (by simp [hpt]), ih]

/-- Decrementing some other id leaves the lookup of `t` unchanged. -/
theorem findItem_decFirst_ne (now : ℤ) (t j : String) (q : ℤ) (hne : j ≠ t)
    (inv : List InventoryItem) :
    findItem t (decFirst now j q inv) = findItem t inv := by
  induction inv with
  | nil => rfl
  | cons p ps ih =>
      by_cases hp : p.id = j
      · rw [show decFirst now j q (p :: ps) =
            ({ p with quantity := p.quantity - q, lastUpdated := now } :: ps) from by
          simp [decFirst, hp]]
        simp only [findItem]
        rw [List.find?_cons_of_neg _ (by simp [hp, hne]),
          List.find?_cons_of_neg _ (by simp [hp, hne])]
      · rw [show decFirst now j q (p :: ps) = (p :: decFirst now j q ps) from by
          simp [decFirst, hp]]
        simp only [findItem] at ih ⊢
        by_cases hpt : p.id = t
        · rw [List.find?_cons_of_pos _ (by simp [hpt]),
            List.find?_cons_of_pos _ (by simp [hpt])]
        · rw [List.find?_cons_of_neg _ (by simp [hpt]),
            List.find?_cons_of_neg _ (by simp [hpt]), ih]

/-- If a sale never references `t`, the whole optimistic update leaves the
lookup of `t` unchanged. -/
theorem findItem_applyLocalSale_ne (now : ℤ) (t : String) (items : List SaleItem)
    (inv : List InventoryItem) (hmem : t ∉ items.map (fun it => it.itemId)) :
    findItem t (applyLocalSale now items inv) = findItem t inv := by
  induction items generalizing inv with
  | nil => rfl
  | cons it its ih =>
      have hfold : applyLocalSale now (it :: its) inv =
          applyLocalSale now its (decFirst now it.itemId it.quantity inv) := by
        simp [applyLocalSale]
      have hne : it.itemId ≠ t := fun h => hmem (by simp [h])
      rw [hfold, ih _ (fun h => hmem (by simp; right; simpa using h)),
        findItem_decFirst_ne now t it.itemId it.quantity hne]

/-- The optimistic update decrements the entry returned by `find` for a
referenced id by exactly the summed quantity of every occurrence of that id
in the sale (and refreshes `lastUpdated`). -/
theorem findItem_applyLocalSale (now : ℤ) (t : String) (items : List SaleItem)
    (inv : List InventoryItem) (hmem : t ∈ items.map (fun it => it.itemId)) :
    findItem t (applyLocalSale now items inv) =
      (findItem t inv).map (fun p =>
        { p with
          quantity :=
            p.quantity -
              ((items.filter (fun j => j.itemId == t)).map (fun j => j.quantity)).sum,
          lastUpdated := now }) := by
  induction items generalizing inv with
  | nil => simp at hmem
  | cons it its ih =>
      have hfold : applyLocalSale now (it :: its) inv =
          applyLocalSale now its (decFirst now it.itemId it.quantity inv) := by
        simp [applyLocalSale]
      rw [hfold]
      by_cases hit : it.itemId = t
      · by_cases hmem2 : t ∈ its.map (fun j => j.itemId)
        · rw [ih _ hmem2, hit, findItem_decFirst_self]
          cases hp : findItem t inv with
          | none => rfl
          | some p =>
              simp only [Option.map_some']
              have hfc : (it :: its).filter (fun j => j.itemId == t) =
                  it :: its.filter (fun j => j.itemId == t) := by
                simp [List.filter_cons, hit]
              rw [hfc]
              simp [sub_sub]
        · rw [findItem_applyLocalSale_ne now t its _ hmem2, hit, findItem_decFirst_self]
          cases hp : findItem t inv with
          | none => rfl
          | some p =>
              simp only [Option.map_some']
              have hfil : its.filter (fun j => j.itemId == t) = [] := by
                refine List.filter_eq_nil_iff.2 (fun j hj => ?_)
                simp only [beq_iff_eq]
                exact fun h => hmem2 (by rw [← h]; exact List.mem_map_of_mem _ hj)
              have hfc : (it :: its).filter (fun j => j.itemId == t) = [it] := by
                simp [List.filter_cons, hit, hfil]
              rw [hfc]
              simp
      · have hmem2 : t ∈ its.map (fun j => j.itemId) := by
          rcases List.mem_map.1 hmem with ⟨j, hj, hjt⟩
          rcases List.mem_cons.1 hj with rfl | hj'
          · exact absurd hjt hit
          · exact hjt ▸ List.mem_map_of_mem _ hj'
        rw [ih _ hmem2, findItem_decFirst_ne now t it.itemId it.quantity hit]
        have hfc : (it :: its).filter (fun j => j.itemId == t) =
            its.filter (fun j => j.itemId == t) := by
          simp [List.filter_cons, hit]
        rw [hfc]

/-- An absolute quantity write for id `t` rewrites exactly the entry `find`
returns for `t`. -/
theorem find?_updateQty_self (t : String) (v now : ℤ) (l : List InventoryItem) :
    (l.map (fun i => if i.id == t then { i with quantity := v, lastUpdated := now } else i)).find?
      (fun i => i.id == t) =
      (l.find? (fun i => i.id == t)).map
        (fun i => { i with quantity := v, lastUpdated := now }) := by
  induction l with
  | nil => rfl
  | cons p ps ih =>
      by_cases hp : p.id = t
      · have hmap : ((p :: ps).map (fun i =>
            if i.id == t then { i with quantity := v, lastUpdated := now } else i)) =
            ({ p with quantity := v, lastUpdated := now } :: ps.map (fun i =>
              if i.id == t then { i with quantity := v, lastUpdated := now } else i)) := by
          simp [hp]
        rw [hmap, List.find?_cons_of_pos _ (by simp [hp]),
          List.find?_cons_of_pos _ (by simp [hp])]
        rfl
      · have hmap : ((p :: ps).map (fun i =>
            if i.id == t then { i with quantity := v, lastUpdated := now } else i)) =
            (p :: ps.map (fun i =>
              if i.id == t then { i with quantity := v, lastUpdated := now } else i)) := by
          simp [hp]
        rw [hmap, List.find?_cons_of_neg _ (by simp [hp]),
          List.find?_cons_of_neg _ (by simp [hp]), ih]

/-- An absolute quantity write for another id leaves the lookup of `t`
unchanged. -/
theorem find?_updateQty_ne (t j : String) (v now : ℤ) (hne : j ≠ t)
    (l : List InventoryItem) :
    (l.map (fun i => if i.id == j then { i with quantity := v, lastUpdated := now } else i)).find?
      (fun i => i.id == t) = l.find? (fun i => i.id == t) := by
  induction l with
  | nil => rfl
  | cons p ps ih =>
      by_cases hp : p.id = j
      · have hmap : ((p :: ps).map (fun i =>
            if i.id == j then { i with quantity := v, lastUpdated := now } else i)) =
            ({ p with quantity := v, lastUpdated := now } :: ps.map (fun i =>
              if i.id == j then { i with quantity := v, lastUpdated := now } else i)) := by
          simp [hp]
        rw [hmap, List.find?_cons_of_neg _ (by simp [hp, hne]),
          List.find?_cons_of_neg _ (by simp [hp, hne]), ih]
      · have hmap : ((p :: ps).map (fun i =>
            if i.id == j then { i with quantity := v, lastUpdated := now } else i)) =
            (p :: ps.map (fun i =>
              if i.id == j then { i with quantity := v, lastUpdated := now } else i)) := by
          simp [hp]
        by_cases hpt : p.id = t
        · rw [hmap, List.find?_cons_of_pos _ (by simp [hpt]),
            List.find?_cons_of_pos _ (by simp [hpt])]
        · rw [hmap, List.find?_cons_of_neg _ (by simp [hpt]),
            List.find?_cons_of_neg _ (by simp [hpt]), ih]

/-- `issue` never changes the failure oracle. -/
theorem issue_failAt (w : RemoteWrite) (gw : Gateway) :
    (issue w gw).1.failAt = gw.failAt := rfl

/-- The remote sale loop never changes the failure oracle. -/
theorem remoteSaleUpdates_failAt (now : ℤ) (snapshot : List InventoryItem)
    (items : List SaleItem) (g : Gateway) :
    (remoteSaleUpdates now snapshot items g).failAt = g.failAt := by
  induction items generalizing g with
  | nil => rfl
  | cons it its ih =>
      cases hf : findItem it.itemId snapshot with
      | none => rw [remoteSaleUpdates, hf]; exact ih _
      | some cur => rw [remoteSaleUpdates, hf]; exact ih _

/-- The remote sale loop only writes inventory rows: the stored sales,
expenses and purchase orders are untouched. -/
theorem remoteSaleUpdates_store_rest (now : ℤ) (snapshot : List InventoryItem)
    (items : List SaleItem) (g : Gateway) :
    (remoteSaleUpdates now snapshot items g).store.sales = g.store.sales ∧
    (remoteSaleUpdates now snapshot items g).store.expenses = g.store.expenses ∧
    (remoteSaleUpdates now snapshot items g).store.purchaseOrders =
      g.store.purchaseOrders := by
  induction items generalizing g with
  | nil => exact ⟨rfl, rfl, rfl⟩
  | cons it its ih =>
      cases hf : findItem it.itemId snapshot with
      | none => rw [remoteSaleUpdates, hf]; exact ih _
      | some cur =>
          rw [remoteSaleUpdates, hf]
          have hstep :
              (issue (RemoteWrite.updateQty it.itemId (cur.quantity - it.quantity) now)
                g).1.store.sales = g.store.sales ∧
              (issue (RemoteWrite.updateQty it.itemId (cur.quantity - it.quantity) now)
                g).1.store.expenses = g.store.expenses ∧
              (issue (RemoteWrite.updateQty it.itemId (cur.quantity - it.quantity) now)
                g).1.store.purchaseOrders = g.store.purchaseOrders := by
            cases hb : g.failAt g.ctr <;> simp [issue, hb, applyWrite]
          obtain ⟨h1, h2, h3⟩ :=
            ih ((issue (RemoteWrite.updateQty it.itemId (cur.quantity - it.quantity) now) g).1)
          exact ⟨h1.trans hstep.1, h2.trans hstep.2.1, h3.trans hstep.2.2⟩

/-- If the snapshot does not resolve `t`, the remote loop issues no write for
`t` and the stored lookup of `t` is unchanged. -/
theorem findItem_remoteSaleUpdates_absent (now : ℤ) (t : String)
    (snapshot : List InventoryItem) (items : List SaleItem) (g : Gateway)
    (h : findItem t snapshot = none) :
    findItem t (remoteSaleUpdates now snapshot items g).store.inventory =
      findItem t g.store.inventory := by
  induction items generalizing g with
  | nil => rfl
  | cons it its ih =>
      cases hf : findItem it.itemId snapshot with
      | none => rw [remoteSaleUpdates, hf]; exact ih _
      | some cur =>
          rw [remoteSaleUpdates, hf]
          have hne : it.itemId ≠ t := by
            intro he; rw [he, h] at hf; exact Option.noConfusion hf
          have hstep : findItem t
              (issue (RemoteWrite.updateQty it.itemId (cur.quantity - it.quantity) now)
                g).1.store.inventory = findItem t g.store.inventory := by
            cases hb : g.failAt g.ctr with
            | true => simp [issue, hb]
            | false =>
                simp only [issue, hb, Bool.false_eq_true, if_false, applyWrite]
                exact find?_updateQty_ne t it.itemId _ now hne _
          exact (ih _).trans hstep

/-- If no item of the loop references `t`, the stored lookup of `t` is
unchanged. -/
theorem findItem_remoteSaleUpdates_ne (now : ℤ) (t : String)
    (snapshot : List InventoryItem) (items : List SaleItem) (g : Gateway)
    (h : ∀ it ∈ items, it.itemId ≠ t) :
    findItem t (remoteSaleUpdates now snapshot items g).store.inventory =
      findItem t g.store.inventory := by
  induction items generalizing g with
  | nil => rfl
  | cons it its ih =>
      have htl : ∀ j ∈ its, j.itemId ≠ t := fun j hj => h j (by simp [hj])
      cases hf : findItem it.itemId snapshot with
      | none => rw [remoteSaleUpdates, hf]; exact ih _ htl
      | some cur =>
          rw [remoteSaleUpdates, hf]
          have hstep : findItem t
              (issue (RemoteWrite.updateQty it.itemId (cur.quantity - it.quantity) now)
                g).1.store.inventory = findItem t g.store.inventory := by
            cases hb : g.failAt g.ctr with
            | true => simp [issue, hb]
            | false =>
                simp only [issue, hb, Bool.false_eq_true, if_false, applyWrite]
                exact find?_updateQty_ne t it.itemId _ now (h it (by simp)) _
          exact (ih _ htl).trans hstep

/-- For a sale whose only occurrence of `t` is `it` (resolved in the snapshot
as `cur`) and with no remote failures, the stored entry returned by `find`
for `t` ends with quantity `cur.quantity - it.quantity`. -/
theorem findItem_remoteSaleUpdates_unique (now : ℤ) (t : String)
    (snapshot : List InventoryItem) (l1 l2 : List SaleItem) (it : SaleItem)
    (g : Gateway) (cur : InventoryItem)
    (hit : it.itemId = t)
    (h1 : ∀ j ∈ l1, j.itemId ≠ t) (h2 : ∀ j ∈ l2, j.itemId ≠ t)
    (hcur : findItem t snapshot = some cur)
    (hfail : ∀ n, g.failAt n = false) :
    findItem t (remoteSaleUpdates now snapshot (l1 ++ it :: l2) g).store.inventory =
      (findItem t g.store.inventory).map (fun p =>
        { p with quantity := cur.quantity - it.quantity, lastUpdated := now }) := by
  rw [remoteSaleUpdates_append]
  have hmid_ne : findItem t (remoteSaleUpdates now snapshot l1 g).store.inventory =
      findItem t g.store.inventory := findItem_remoteSaleUpdates_ne now t snapshot l1 g h1
  have hb : (remoteSaleUpdates now snapshot l1 g).failAt
      (remoteSaleUpdates now snapshot l1 g).ctr = false := by
    rw [remoteSaleUpdates_failAt]; exact hfail _
  have hfind : findItem it.itemId snapshot = some cur := by rw [hit]; exact hcur
  rw [remoteSaleUpdates, hfind]
  have hstep : findItem t
      (issue (RemoteWrite.updateQty it.itemId (cur.quantity - it.quantity) now)
        (remoteSaleUpdates now snapshot l1 g)).1.store.inventory =
      (findItem t g.store.inventory).map (fun p =>
        { p with quantity := cur.quantity - it.quantity, lastUpdated := now }) := by
    simp only [issue, hb, Bool.false_eq_true, if_false, applyWrite]
    rw [hit]
    simp only [findItem] at hmid_ne ⊢
    rw [find?_updateQty_self t (cur.quantity - it.quantity) now _, hmid_ne]
  exact (findItem_remoteSaleUpdates_ne now t snapshot l2 _ h2).trans hstep

/-- C1 (amended): after a fully successful `completeSale` against a
synchronized store, the new sale record sits at the front of both the local
and the stored sales; every referenced item's local quantity drops by exactly
the summed quantity of all of that id's occurrences in the sale; and — when
no itemId occurs twice in the sale — the stored quantities agree with the
local ones on every referenced item.  (With a repeated itemId the remote
store keeps only the last occurrence's snapshot-based write, so local and
remote can disagree; see the counterexample.) -/
theorem completeSale_sync (now : ℤ) (newId : String) (items : List SaleItem)
    (st : AppState) (gw : Gateway)
    (hne : items ≠ [])
    (hfail : ∀ n, gw.failAt n = false)
    (hsync : gw.store.inventory = st.inventory) :
    (handleCompleteSale now newId items st gw).alerted = false ∧
    (handleCompleteSale now newId items st gw).state.sales =
      mkSaleRecord now newId items :: st.sales ∧
    (handleCompleteSale now newId items st gw).gateway.store.sales =
      mkSaleRecord now newId items :: gw.store.sales ∧
    (∀ it ∈ items,
      findItem it.itemId (handleCompleteSale now newId items st gw).state.inventory =
        (findItem it.itemId st.inventory).map (fun p =>
          { p with
            quantity :=
              p.quantity -
                ((items.filter (fun j => j.itemId == it.itemId)).map
                  (fun j => j.quantity)).sum,
            lastUpdated := now })) ∧
    ((items.map (fun it => it.itemId)).Nodup →
      ∀ it ∈ items,
        findItem it.itemId
            (handleCompleteSale now newId items st gw).gateway.store.inventory =
          findItem it.itemId (handleCompleteSale now newId items st gw).state.inventory) := by
  have hr2 : (issue (RemoteWrite.insertSale (mkSaleRecord now newId items)) gw).2 = false := by
    simp [issue, hfail]
  have hstate : (handleCompleteSale now newId items st gw).state =
      optimisticSaleState now newId items st := by
    unfold handleCompleteSale
    simp only [hr2, Bool.false_eq_true, if_false]
  have hgw : (handleCompleteSale now newId items st gw).gateway =
      remoteSaleUpdates now st.inventory items
        (issue (RemoteWrite.insertSale (mkSaleRecord now newId items)) gw).1 := by
    unfold handleCompleteSale
    simp only [hr2, Bool.false_eq_true, if_false]
  have halert : (handleCompleteSale now newId items st gw).alerted = false := by
    unfold handleCompleteSale
    simp only [hr2, Bool.false_eq_true, if_false]
  have hg0inv :
      (issue (RemoteWrite.insertSale (mkSaleRecord now newId items)) gw).1.store.inventory =
      st.inventory := by
    simp [issue, hfail, applyWrite, hsync]
  have hg0fail : ∀ n,
      (issue (RemoteWrite.insertSale (mkSaleRecord now newId items)) gw).1.failAt n = false := by
    intro n; rw [issue_failAt]; exact hfail n
  refine ⟨halert, ?_, ?_, ?_, ?_⟩
  · rw [hstate]; rfl
  · rw [hgw,
      (remoteSaleUpdates_store_rest now st.inventory items
        (issue (RemoteWrite.insertSale (mkSaleRecord now newId items)) gw).1).1]
    simp [issue, hfail, applyWrite]
  · intro it hit
    rw [hstate]
    show findItem it.itemId (applyLocalSale now items st.inventory) = _
    exact findItem_applyLocalSale now it.itemId items st.inventory
      (List.mem_map_of_mem _ hit)
  · intro hnd it hitm
    obtain ⟨l1, l2, hsplit⟩ := List.append_of_mem hitm
    subst hsplit
    have hnd' := hnd
    rw [List.map_append, List.map_cons] at hnd'
    have h1 : ∀ j ∈ l1, j.itemId ≠ it.itemId := by
      intro j hj he
      have hm : it.itemId ∈ l1.map (fun x => x.itemId) := by
        rw [← he]; exact List.mem_map_of_mem _ hj
      exact (List.disjoint_of_nodup_append hnd') hm (by simp)
    have h2 : ∀ j ∈ l2, j.itemId ≠ it.itemId := by
      intro j hj he
      have htail : (it.itemId :: l2.map (fun x => x.itemId)).Nodup :=
        hnd'.of_append_right
      have hm : it.itemId ∈ l2.map (fun x => x.itemId) := by
        rw [← he]; exact List.mem_map_of_mem _ hj
      exact (List.nodup_cons.1 htail).1 hm
    have hlocal : findItem it.itemId
        (handleCompleteSale now newId (l1 ++ it :: l2) st gw).state.inventory =
        (findItem it.itemId st.inventory).map (fun p =>
          { p with
            quantity :=
              p.quantity -
                (((l1 ++ it :: l2).filter (fun j => j.itemId == it.itemId)).map
                  (fun j => j.quantity)).sum,
            lastUpdated := now }) := by
      rw [hstate]
      show findItem it.itemId (applyLocalSale now (l1 ++ it :: l2) st.inventory) = _
      exact findItem_applyLocalSale now it.itemId (l1 ++ it :: l2) st.inventory
        (List.mem_map_of_mem _ hitm)
    have hfilt : (l1 ++ it :: l2).filter (fun j => j.itemId == it.itemId) = [it] := by
      have hf1 : l1.filter (fun j => j.itemId == it.itemId) = [] :=
        List.filter_eq_nil_iff.2 (fun j hj => by simp [h1 j hj])
      have hf2 : l2.filter (fun j => j.itemId == it.itemId) = [] :=
        List.filter_eq_nil_iff.2 (fun j hj => by simp [h2 j hj])
      rw [List.filter_append, hf1, List.filter_cons]
      simp [hf2]
    rw [hlocal, hfilt, hgw]
    cases hcur : findItem it.itemId st.inventory with
    | none =>
        rw [findItem_remoteSaleUpdates_absent now it.itemId st.inventory _ _ hcur, hg0inv,
          hcur]
        rfl
    | some cur =>
        rw [findItem_remoteSaleUpdates_unique now it.itemId st.inventory l1 l2 it _ cur
          rfl h1 h2 hcur hg0fail, hg0inv, hcur]
        simp

/-- Witness for `completeSale_sync`: a two-line sale over distinct ids `A`
and `B` against a synchronized store with no failures. -/
theorem completeSale_sync_witness :
    (handleCompleteSale 1 "s1" [⟨"A", "A", 2, 5, 1⟩, ⟨"B", "B", 3, 7, 2⟩]
        ⟨[⟨"A", "A", "c", 10, 1, 5, 0, 0⟩, ⟨"B", "B", "c", 20, 2, 7, 0, 0⟩], [], [], []⟩
        ⟨⟨[⟨"A", "A", "c", 10, 1, 5, 0, 0⟩, ⟨"B", "B", "c", 20, 2, 7, 0, 0⟩], [], [], []⟩,
          fun _ => false, 0, []⟩).alerted = false ∧
    (handleCompleteSale 1 "s1" [⟨"A", "A", 2, 5, 1⟩, ⟨"B", "B", 3, 7, 2⟩]
        ⟨[⟨"A", "A", "c", 10, 1, 5, 0, 0⟩, ⟨"B", "B", "c", 20, 2, 7, 0, 0⟩], [], [], []⟩
        ⟨⟨[⟨"A", "A", "c", 10, 1, 5, 0, 0⟩, ⟨"B", "B", "c", 20, 2, 7, 0, 0⟩], [], [], []⟩,
          fun _ => false, 0, []⟩).state.sales =
      mkSaleRecord 1 "s1" [⟨"A", "A", 2, 5, 1⟩, ⟨"B", "B", 3, 7, 2⟩] ::
        ([] : List SaleRecord) ∧
    (handleCompleteSale 1 "s1" [⟨"A", "A", 2, 5, 1⟩, ⟨"B", "B", 3, 7, 2⟩]
        ⟨[⟨"A", "A", "c", 10, 1, 5, 0, 0⟩, ⟨"B", "B", "c", 20, 2, 7, 0, 0⟩], [], [], []⟩
        ⟨⟨[⟨"A", "A", "c", 10, 1, 5, 0, 0⟩, ⟨"B", "B", "c", 20, 2, 7, 0, 0⟩], [], [], []⟩,
          fun _ => false, 0, []⟩).gateway.store.sales =
      mkSaleRecord 1 "s1" [⟨"A", "A", 2, 5, 1⟩, ⟨"B", "B", 3, 7, 2⟩] ::
        ([] : List SaleRecord) ∧
    (∀ it ∈ ([⟨"A", "A", 2, 5, 1⟩, ⟨"B", "B", 3, 7, 2⟩] : List SaleItem),
      findItem it.itemId (handleCompleteSale 1 "s1"
          [⟨"A", "A", 2, 5, 1⟩, ⟨"B", "B", 3, 7, 2⟩]
          ⟨[⟨"A", "A", "c", 10, 1, 5, 0, 0⟩, ⟨"B", "B", "c", 20, 2, 7, 0, 0⟩], [], [], []⟩
          ⟨⟨[⟨"A", "A", "c", 10, 1, 5, 0, 0⟩, ⟨"B", "B", "c", 20, 2, 7, 0, 0⟩], [], [], []⟩,
            fun _ => false, 0, []⟩).state.inventory =
        (findItem it.itemId
            [⟨"A", "A", "c", 10, 1, 5, 0, 0⟩, ⟨"B", "B", "c", 20, 2, 7, 0, 0⟩]).map (fun p =>
          { p with
            quantity :=
              p.quantity -
                ((([⟨"A", "A", 2, 5, 1⟩, ⟨"B", "B", 3, 7, 2⟩] : List SaleItem).filter
                  (fun j => j.itemId == it.itemId)).map (fun j => j.quantity)).sum,
            lastUpdated := 1 })) ∧
    ((([⟨"A", "A", 2, 5, 1⟩, ⟨"B", "B", 3, 7, 2⟩] : List SaleItem).map
        (fun it => it.itemId)).Nodup →
      ∀ it ∈ ([⟨"A", "A", 2, 5, 1⟩, ⟨"B", "B", 3, 7, 2⟩] : List SaleItem),
        findItem it.itemId (handleCompleteSale 1 "s1"
            [⟨"A", "A", 2, 5, 1⟩, ⟨"B", "B", 3, 7, 2⟩]
            ⟨[⟨"A", "A", "c", 10, 1, 5, 0, 0⟩, ⟨"B", "B", "c", 20, 2, 7, 0, 0⟩], [], [], []⟩
            ⟨⟨[⟨"A", "A", "c", 10, 1, 5, 0, 0⟩, ⟨"B", "B", "c", 20, 2, 7, 0, 0⟩], [], [], []⟩,
              fun _ => false, 0, []⟩).gateway.store.inventory =
          findItem it.itemId (handleCompleteSale 1 "s1"
            [⟨"A", "A", 2, 5, 1⟩, ⟨"B", "B", 3, 7, 2⟩]
            ⟨[⟨"A", "A", "c", 10, 1, 5, 0, 0⟩, ⟨"B", "B", "c", 20, 2, 7, 0, 0⟩], [], [], []⟩
            ⟨⟨[⟨"A", "A", "c", 10, 1, 5, 0, 0⟩, ⟨"B", "B", "c", 20, 2, 7, 0, 0⟩], [], [], []⟩,
              fun _ => false, 0, []⟩).state.inventory) :=
  completeSale_sync 1 "s1" [⟨"A", "A", 2, 5, 1⟩, ⟨"B", "B", 3, 7, 2⟩]
    ⟨[⟨"A", "A", "c", 10, 1, 5, 0, 0⟩, ⟨"B", "B", "c", 20, 2, 7, 0, 0⟩], [], [], []⟩
    ⟨⟨[⟨"A", "A", "c", 10, 1, 5, 0, 0⟩, ⟨"B", "B", "c", 20, 2, 7, 0, 0⟩], [], [], []⟩,
      fun _ => false, 0, []⟩ (by decide) (fun _ => rfl) rfl

/-- `incFirst` returns `none` exactly when no entry carries the id. -/
theorem incFirst_eq_none (now : ℤ) (t : String) (q : ℤ) (inv : List InventoryItem) :
    incFirst now t q inv = none ↔ ∀ p ∈ inv, p.id ≠ t := by
  induction inv with
  | nil => simp [incFirst]
  | cons p ps ih =>
      by_cases hp : p.id = t
      · simp [incFirst, hp]
      · simp [incFirst, hp, ih, Option.map_eq_none']

/-- A successful `incFirst` preserves the list of ids. -/
theorem incFirst_map_id (now : ℤ) (t : String) (q : ℤ) (inv : List InventoryItem)
    (v : ℤ) (inv' : List InventoryItem)
    (h : incFirst now t q inv = some (v, inv')) :
    inv'.map (fun i => i.id) = inv.map (fun i => i.id) := by
  induction inv generalizing inv' v with
  | nil => simp [incFirst] at h
  | cons p ps ih =>
      by_cases hp : p.id = t
      · simp only [incFirst, hp, beq_self_eq_true, if_true, Option.some.injEq,
          Prod.mk.injEq] at h
        obtain ⟨_, hinv⟩ := h
        rw [← hinv]
        simp [hp]
      · simp only [incFirst, hp, beq_iff_eq, if_false, Option.map_eq_some'] at h
        obtain ⟨⟨v0, inv0⟩, hr, heq⟩ := h
        simp only [Prod.mk.injEq] at heq
        obtain ⟨_, hinv⟩ := heq
        rw [← hinv]
        simp [ih v0 inv0 hr]

/-- Under distinct inventory ids, a successful `incFirst` adds `q` to the
entry carrying the id and leaves every other entry untouched. -/
theorem incFirst_forall2 (now : ℤ) (t : String) (q : ℤ) (inv : List InventoryItem)
    (v : ℤ) (inv' : List InventoryItem)
    (hnd : (inv.map (fun i => i.id)).Nodup)
    (h : incFirst now t q inv = some (v, inv')) :
    List.Forall₂ (fun a b => b.id = a.id ∧
      b.quantity = a.quantity + (if a.id = t then q else 0)) inv inv' := by
  induction inv generalizing inv' v with
  | nil => simp [incFirst] at h
  | cons p ps ih =>
      simp only [List.map_cons, List.nodup_cons] at hnd
      by_cases hp : p.id = t
      · simp only [incFirst, hp, beq_self_eq_true, if_true, Option.some.injEq,
          Prod.mk.injEq] at h
        obtain ⟨_, hinv⟩ := h
        rw [← hinv]
        refine List.Forall₂.cons ⟨by simp [hp], by simp [hp]⟩ ?_
        refine List.forall₂_same.2 (fun a ha => ⟨rfl, ?_⟩)
        have hat : a.id ≠ t := by
          intro he
          exact hnd.1 (by rw [hp, ← he]; exact List.mem_map_of_mem _ ha)
        simp [hat]
      · simp only [incFirst, hp, beq_iff_eq, if_false, Option.map_eq_some'] at h
        obtain ⟨⟨v0, inv0⟩, hr, heq⟩ := h
        simp only [Prod.mk.injEq] at heq
        obtain ⟨_, hinv⟩ := heq
        rw [← hinv]
        exact List.Forall₂.cons ⟨rfl, by simp [hp]⟩ (ih v0 inv0 hnd.2 hr)

/-- The receipt loop never changes the failure oracle. -/
theorem receiveItems_failAt (now : ℤ) (its : List PurchaseOrderItem)
    (inv : List InventoryItem) (g : Gateway) :
    (receiveItems now its inv g).2.failAt = g.failAt := by
  induction its generalizing inv g with
  | nil => rfl
  | cons it its ih =>
      cases hf : incFirst now it.itemId it.quantity inv with
      | none => rw [receiveItems, hf]; exact ih _ _
      | some r => rw [receiveItems, hf]; exact ih _ _

/-- Under distinct inventory ids, the receipt loop adds to every entry the
summed ordered quantity of all order lines carrying that entry's id (and
leaves ids in place). -/
theorem receiveItems_forall2 (now : ℤ) (its : List PurchaseOrderItem)
    (inv : List InventoryItem) (g : Gateway)
    (hnd : (inv.map (fun i => i.id)).Nodup) :
    List.Forall₂ (fun a b => b.id = a.id ∧
      b.quantity = a.quantity +
        ((its.filter (fun it => it.itemId == a.id)).map (fun it => it.quantity)).sum)
      inv (receiveItems now its inv g).1 := by
  induction its generalizing inv g with
  | nil =>
      exact List.forall₂_same.2 (fun a _ => ⟨rfl, by simp [receiveItems]⟩)
  | cons it its ih =>
      cases hf : incFirst now it.itemId it.quantity inv with
      | none =>
          rw [receiveItems, hf]
          have habs := (incFirst_eq_none now it.itemId it.quantity inv).1 hf
          refine forall2_imp_mem (ih inv g hnd) ?_
          rintro a ha b ⟨hid, hq⟩
          refine ⟨hid, ?_⟩
          have hfc : ((it :: its).filter (fun j => j.itemId == a.id)) =
              its.filter (fun j => j.itemId == a.id) := by
            have : (it.itemId == a.id) = false := by
              simp only [beq_eq_false_iff_ne, ne_eq]
              exact fun he => habs a ha he.symm
            simp [List.filter_cons, this]
          rw [hfc]
          exact hq
      | some r =>
          obtain ⟨v, inv1⟩ := r
          rw [receiveItems, hf]
          have h1 := incFirst_forall2 now it.itemId it.quantity inv v inv1 hnd hf
          have hid1 : inv1.map (fun i => i.id) = inv.map (fun i => i.id) :=
            incFirst_map_id now it.itemId it.quantity inv v inv1 hf
          have h2 := ih inv1
            ((issue (RemoteWrite.updateQty it.itemId v now) g).1) (by rw [hid1]; exact hnd)
          refine forall2_trans h1 h2 ?_
          rintro a b c ⟨hid, hq⟩ ⟨hid2, hq2⟩
          refine ⟨hid2.trans hid, ?_⟩
          rw [hq2, hq, hid]
          by_cases hat : a.id = it.itemId
          · have hfc : ((it :: its).filter (fun j => j.itemId == a.id)) =
                it :: its.filter (fun j => j.itemId == a.id) := by
              simp [List.filter_cons, hat]
            rw [hfc]
            simp [hat, add_assoc]
          · have hfc : ((it :: its).filter (fun j => j.itemId == a.id)) =
                its.filter (fun j => j.itemId == a.id) := by
              have : (it.itemId == a.id) = false := by
                simp only [beq_eq_false_iff_ne, ne_eq]
                exact fun he => hat he.symm
              simp [List.filter_cons, this]
            rw [hfc]
            simp [hat]

/-- Re-applying the status write is idempotent on the order list. -/
theorem map_setStatus_idem (id : String) (s : POStatus) (l : List PurchaseOrder) :
    ((l.map (fun p => if p.id == id then { p with status := s } else p)).map
      (fun p => if p.id == id then { p with status := s } else p)) =
      l.map (fun p => if p.id == id then { p with status := s } else p) := by
  rw [List.map_map]
  refine List.map_congr_left (fun p _ => ?_)
  by_cases hp : p.id = id
  · simp [Function.comp, hp]
  · simp [Function.comp, hp]

/-- Characterization of `handleUpdatePOStatus(id, received)` when the order's
previous status was not `received` and the status write succeeds: status set
on every matching order, inventory replaced by the receipt loop's result. -/
theorem updatePOStatus_receiving (now : ℤ) (id : String)
    (st : AppState) (gw : Gateway) (po : PurchaseOrder)
    (hfind : st.purchaseOrders.find? (fun p => p.id == id) = some po)
    (hne : po.status ≠ POStatus.received)
    (hfail : ∀ n, gw.failAt n = false) :
    (handleUpdatePOStatus now id POStatus.received st gw).state =
      { st with
        inventory := (receiveItems now po.items st.inventory
          (issue (RemoteWrite.updatePOStatus id POStatus.received) gw).1).1,
        purchaseOrders := st.purchaseOrders.map (fun p =>
          if p.id == id then { p with status := POStatus.received } else p) } ∧
    (handleUpdatePOStatus now id POStatus.received st gw).gateway =
      (receiveItems now po.items st.inventory
        (issue (RemoteWrite.updatePOStatus id POStatus.received) gw).1).2 := by
  have hg : (issue (RemoteWrite.updatePOStatus id POStatus.received) gw).2 = false := by
    simp [issue, hfail]
  constructor <;>
  · unfold handleUpdatePOStatus
    rw [hfind]
    simp only [hg, Bool.false_eq_true, if_false]
    split
    · rfl
    · rename_i hcond
      exact absurd ⟨by trivial, hne⟩ hcond

/-- Characterization of `handleUpdatePOStatus(id, received)` when the order
is already `received`: the status map is re-applied but the receipt loop does
not run, so the inventory is untouched. -/
theorem updatePOStatus_already_received (now : ℤ) (id : String)
    (st : AppState) (gw : Gateway) (po1 : PurchaseOrder)
    (hfind : st.purchaseOrders.find? (fun p => p.id == id) = some po1)
    (hrec : po1.status = POStatus.received)
    (hfail : ∀ n, gw.failAt n = false) :
    (handleUpdatePOStatus now id POStatus.received st gw).state =
      { st with purchaseOrders := st.purchaseOrders.map (fun p =>
          if p.id == id then { p with status := POStatus.received } else p) } ∧
    (handleUpdatePOStatus now id POStatus.received st gw).gateway =
      (issue (RemoteWrite.updatePOStatus id POStatus.received) gw).1 := by
  have hg : (issue (RemoteWrite.updatePOStatus id POStatus.received) gw).2 = false := by
    simp [issue, hfail]
  constructor <;>
  · unfold handleUpdatePOStatus
    rw [hfind]
    simp only [hg, Bool.false_eq_true, if_false]
    split
    · rename_i hcond
      exact absurd hrec hcond.2
    · rfl

/-- C5: receiving an `ordered` purchase order adds each order line's
quantity to the matching InventoryItem (summed per id) and sets the order's
status to `received`; a second `received` call right after leaves the
inventory — local and stored — and the order list unchanged, so quantities are
incremented exactly once across the two calls. -/
theorem receive_po_once (now now2 : ℤ) (id : String) (st : AppState) (gw : Gateway)
    (po : PurchaseOrder)
    (hfind : st.purchaseOrders.find? (fun p => p.id == id) = some po)
    (hord : po.status = POStatus.ordered)
    (hnodup : (st.inventory.map (fun i => i.id)).Nodup)
    (hfail : ∀ n, gw.failAt n = false) :
    (handleUpdatePOStatus now id POStatus.received st gw).state.purchaseOrders.find?
      (fun p => p.id == id) = some { po with status := POStatus.received } ∧
    List.Forall₂ (fun a b => b.id = a.id ∧
        b.quantity = a.quantity +
          ((po.items.filter (fun it => it.itemId == a.id)).map
            (fun it => it.quantity)).sum)
      st.inventory
      (handleUpdatePOStatus now id POStatus.received st gw).state.inventory ∧
    (handleUpdatePOStatus now2 id POStatus.received
        (handleUpdatePOStatus now id POStatus.received st gw).state
        (handleUpdatePOStatus now id POStatus.received st gw).gateway).state.inventory =
      (handleUpdatePOStatus now id POStatus.received st gw).state.inventory ∧
    (handleUpdatePOStatus now2 id POStatus.received
        (handleUpdatePOStatus now id POStatus.received st gw).state
        (handleUpdatePOStatus now id POStatus.received st gw).gateway).state.purchaseOrders =
      (handleUpdatePOStatus now id POStatus.received st gw).state.purchaseOrders ∧
    (handleUpdatePOStatus now2 id POStatus.received
        (handleUpdatePOStatus now id POStatus.received st gw).state
        (handleUpdatePOStatus now id POStatus.received st gw).gateway).gateway.store.inventory =
      (handleUpdatePOStatus now id POStatus.received st gw).gateway.store.inventory := by
  have hne : po.status ≠ POStatus.received := by
    rw [hord]
    intro h
    exact POStatus.noConfusion h
  obtain ⟨hr1state, hr1gw⟩ := updatePOStatus_receiving now id st gw po hfind hne hfail
  have hA : (handleUpdatePOStatus now id POStatus.received st gw).state.purchaseOrders.find?
      (fun p => p.id == id) = some { po with status := POStatus.received } := by
    rw [hr1state]
    show (st.purchaseOrders.map (fun p =>
      if p.id == id then { p with status := POStatus.received } else p)).find?
        (fun p => p.id == id) = _
    rw [find?_setStatus, hfind]
    rfl
  have hg2fail : ∀ n,
      (handleUpdatePOStatus now id POStatus.received st gw).gateway.failAt n = false := by
    intro n
    rw [hr1gw, receiveItems_failAt, issue_failAt]
    exact hfail n
  obtain ⟨hr2state, hr2gw⟩ := updatePOStatus_already_received now2 id
    (handleUpdatePOStatus now id POStatus.received st gw).state
    (handleUpdatePOStatus now id POStatus.received st gw).gateway
    { po with status := POStatus.received } hA rfl hg2fail
  refine ⟨hA, ?_, ?_, ?_, ?_⟩
  · rw [hr1state]
    exact receiveItems_forall2 now po.items st.inventory _ hnodup
  · rw [hr2state]
  · rw [hr2state]
    show ((handleUpdatePOStatus now id POStatus.received st gw).state.purchaseOrders.map
      (fun p => if p.id == id then { p with status := POStatus.received } else p)) = _
    rw [hr1state]
    show ((st.purchaseOrders.map (fun p =>
        if p.id == id then { p with status := POStatus.received } else p)).map
          (fun p => if p.id == id then { p with status := POStatus.received } else p)) = _
    rw [map_setStatus_idem]
  · rw [hr2gw]
    cases hb : (handleUpdatePOStatus now id POStatus.received st gw).gateway.failAt
        (handleUpdatePOStatus now id POStatus.received st gw).gateway.ctr with
    | true => simp [issue, hb]
    | false => simp [issue, hb, applyWrite]

/-- Witness for `receive_po_once`: the spec's example — order
`[(A, qty 5, unitCost 2)]` received against item `A` with quantity 10 ends at
15 with status `received`, and a second receiving call changes nothing. -/
theorem receive_po_once_witness :
    (handleUpdatePOStatus 3 "P" POStatus.received
        ⟨[⟨"A", "A", "c", 10, 2, 5, 0, 0⟩], [], [],
          [⟨"P", "S", 1, POStatus.ordered, [⟨"A", "A", 5, 2⟩], 10, none⟩]⟩
        ⟨⟨[⟨"A", "A", "c", 10, 2, 5, 0, 0⟩], [], [],
          [⟨"P", "S", 1, POStatus.ordered, [⟨"A", "A", 5, 2⟩], 10, none⟩]⟩,
          fun _ => false, 0, []⟩).state.purchaseOrders.find? (fun p => p.id == "P") =
      some ⟨"P", "S", 1, POStatus.received, [⟨"A", "A", 5, 2⟩], 10, none⟩ ∧
    List.Forall₂ (fun a b => b.id = a.id ∧
        b.quantity = a.quantity +
          ((([⟨"A", "A", 5, 2⟩] : List PurchaseOrderItem).filter
            (fun it => it.itemId == a.id)).map (fun it => it.quantity)).sum)
      ([⟨"A", "A", "c", 10, 2, 5, 0, 0⟩] : List InventoryItem)
      (handleUpdatePOStatus 3 "P" POStatus.received
        ⟨[⟨"A", "A", "c", 10, 2, 5, 0, 0⟩], [], [],
          [⟨"P", "S", 1, POStatus.ordered, [⟨"A", "A", 5, 2⟩], 10, none⟩]⟩
        ⟨⟨[⟨"A", "A", "c", 10, 2, 5, 0, 0⟩], [], [],
          [⟨"P", "S", 1, POStatus.ordered, [⟨"A", "A", 5, 2⟩], 10, none⟩]⟩,
          fun _ => false, 0, []⟩).state.inventory ∧
    (handleUpdatePOStatus 4 "P" POStatus.received
        (handleUpdatePOStatus 3 "P" POStatus.received
          ⟨[⟨"A", "A", "c", 10, 2, 5, 0, 0⟩], [], [],
            [⟨"P", "S", 1, POStatus.ordered, [⟨"A", "A", 5, 2⟩], 10, none⟩]⟩
          ⟨⟨[⟨"A", "A", "c", 10, 2, 5, 0, 0⟩], [], [],
            [⟨"P", "S", 1, POStatus.ordered, [⟨"A", "A", 5, 2⟩], 10, none⟩]⟩,
            fun _ => false, 0, []⟩).state
        (handleUpdatePOStatus 3 "P" POStatus.received
          ⟨[⟨"A", "A", "c", 10, 2, 5, 0, 0⟩], [], [],
            [⟨"P", "S", 1, POStatus.ordered, [⟨"A", "A", 5, 2⟩], 10, none⟩]⟩
          ⟨⟨[⟨"A", "A", "c", 10, 2, 5, 0, 0⟩], [], [],
            [⟨"P", "S", 1, POStatus.ordered, [⟨"A", "A", 5, 2⟩], 10, none⟩]⟩,
            fun _ => false, 0, []⟩).gateway).state.inventory =
      (handleUpdatePOStatus 3 "P" POStatus.received
        ⟨[⟨"A", "A", "c", 10, 2, 5, 0, 0⟩], [], [],
          [⟨"P", "S", 1, POStatus.ordered, [⟨"A", "A", 5, 2⟩], 10, none⟩]⟩
        ⟨⟨[⟨"A", "A", "c", 10, 2, 5, 0, 0⟩], [], [],
          [⟨"P", "S", 1, POStatus.ordered, [⟨"A", "A", 5, 2⟩], 10, none⟩]⟩,
          fun _ => false, 0, []⟩).state.inventory ∧
    (handleUpdatePOStatus 4 "P" POStatus.received
        (handleUpdatePOStatus 3 "P" POStatus.received
          ⟨[⟨"A", "A", "c", 10, 2, 5, 0, 0⟩], [], [],
            [⟨"P", "S", 1, POStatus.ordered, [⟨"A", "A", 5, 2⟩], 10, none⟩]⟩
          ⟨⟨[⟨"A", "A", "c", 10, 2, 5, 0, 0⟩], [], [],
            [⟨"P", "S", 1, POStatus.ordered, [⟨"A", "A", 5, 2⟩], 10, none⟩]⟩,
            fun _ => false, 0, []⟩).state
        (handleUpdatePOStatus 3 "P" POStatus.received
          ⟨[⟨"A", "A", "c", 10, 2, 5, 0, 0⟩], [], [],
            [⟨"P", "S", 1, POStatus.ordered, [⟨"A", "A", 5, 2⟩], 10, none⟩]⟩
          ⟨⟨[⟨"A", "A", "c", 10, 2, 5, 0, 0⟩], [], [],
            [⟨"P", "S", 1, POStatus.ordered, [⟨"A", "A", 5, 2⟩], 10, none⟩]⟩,
            fun _ => false, 0, []⟩).gateway).state.purchaseOrders =
      (handleUpdatePOStatus 3 "P" POStatus.received
        ⟨[⟨"A", "A", "c", 10, 2, 5, 0, 0⟩], [], [],
          [⟨"P", "S", 1, POStatus.ordered, [⟨"A", "A", 5, 2⟩], 10, none⟩]⟩
        ⟨⟨[⟨"A", "A", "c", 10, 2, 5, 0, 0⟩], [], [],
          [⟨"P", "S", 1, POStatus.ordered, [⟨"A", "A", 5, 2⟩], 10, none⟩]⟩,
          fun _ => false, 0, []⟩).state.purchaseOrders ∧
    (handleUpdatePOStatus 4 "P" POStatus.received
        (handleUpdatePOStatus 3 "P" POStatus.received
          ⟨[⟨"A", "A", "c", 10, 2, 5, 0, 0⟩], [], [],
            [⟨"P", "S", 1, POStatus.ordered, [⟨"A", "A", 5, 2⟩], 10, none⟩]⟩
          ⟨⟨[⟨"A", "A", "c", 10, 2, 5, 0, 0⟩], [], [],
            [⟨"P", "S", 1, POStatus.ordered, [⟨"A", "A", 5, 2⟩], 10, none⟩]⟩,
            fun _ => false, 0, []⟩).state
        (handleUpdatePOStatus 3 "P" POStatus.received
          ⟨[⟨"A", "A", "c", 10, 2, 5, 0, 0⟩], [], [],
            [⟨"P", "S", 1, POStatus.ordered, [⟨"A", "A", 5, 2⟩], 10, none⟩]⟩
          ⟨⟨[⟨"A", "A", "c", 10, 2, 5, 0, 0⟩], [], [],
            [⟨"P", "S", 1, POStatus.ordered, [⟨"A", "A", 5, 2⟩], 10, none⟩]⟩,
            fun _ => false, 0, []⟩).gateway).gateway.store.inventory =
      (handleUpdatePOStatus 3 "P" POStatus.received
        ⟨[⟨"A", "A", "c", 10, 2, 5, 0, 0⟩], [], [],
          [⟨"P", "S", 1, POStatus.ordered, [⟨"A", "A", 5, 2⟩], 10, none⟩]⟩
        ⟨⟨[⟨"A", "A", "c", 10, 2, 5, 0, 0⟩], [], [],
          [⟨"P", "S", 1, POStatus.ordered, [⟨"A", "A", 5, 2⟩], 10, none⟩]⟩,
          fun _ => false, 0, []⟩).gateway.store.inventory :=
  receive_po_once 3 4 "P"
    ⟨[⟨"A", "A", "c", 10, 2, 5, 0, 0⟩], [], [],
      [⟨"P", "S", 1, POStatus.ordered, [⟨"A", "A", 5, 2⟩], 10, none⟩]⟩
    ⟨⟨[⟨"A", "A", "c", 10, 2, 5, 0, 0⟩], [], [],
      [⟨"P", "S", 1, POStatus.ordered, [⟨"A", "A", 5, 2⟩], 10, none⟩]⟩,
      fun _ => false, 0, []⟩
    ⟨"P", "S", 1, POStatus.ordered, [⟨"A", "A", 5, 2⟩], 10, none⟩
    (by decide) (by decide) (by decide) (fun _ => rfl)

end RahaSoldi
